import Mathlib

/-!
Verification development for the MyPhotoStorage backend (`server.js`).

The catalog store (the two MongoDB collections `Album` and `Photo`) is
embedded as explicit state; the object store and the media libraries
(heic-convert, FFmpeg, R2 upload/delete) are external collaborators whose
success or failure is an input to each operation.  Every route handler of
`server.js` that the specification's testable properties mention is
translated into a pure state-passing function below; theorems about those
functions follow after the definitions.

Modelling conventions:
* MongoDB ObjectIds are modelled as `Nat` and are never reused, so a fresh
  id is chosen above every id still present anywhere in the state.
* `photoCount` is an `Int`: the store's `$inc` operator can drive the field
  below zero, nothing in the code clamps it.
* Timestamps (`createdAt`, `uploadedAt`) are omitted: no claim depends on
  them.  `Date.now()` values that flow into storage keys are explicit `ts`
  parameters.
* The `Buffer.from(name, 'latin1').toString('utf8')` mojibake fix is the
  identity on the decoded filename, so `originalname` stands for the
  already-decoded filename.
-/

/-- Reserved default album name (the string literal in `server.js`). -/
def defaultAlbumName : String := "未分類相簿"

/-- An `Album` document, from `AlbumSchema`. -/
structure Album where
  id : Nat
  name : String
  coverUrl : String
  photoCount : Int
  deriving Repr, DecidableEq

/-- A `Photo` document, from `PhotoSchema`.  `githubUrl` is the public
remote URL field (its name is historical in the source). -/
structure Photo where
  id : Nat
  originalFileName : String
  storageFileName : String
  githubUrl : String
  albumId : Option Nat
  deriving Repr, DecidableEq

/-- The catalog store: the two collections. -/
structure DBState where
  albums : List Album
  photos : List Photo
  deriving Repr, DecidableEq

/-- Update the first element satisfying `pr`.  Models a single-document
MongoDB update (`findByIdAndUpdate`, `photo.save()`): `_id` is unique in
the store, so at most one document matches an `_id` filter. -/
def updateFirstBy (pr : α → Bool) (u : α → α) : List α → List α
  | [] => []
  | x :: xs => if pr x then u x :: xs else x :: updateFirstBy pr u xs

/-- Remove the first element satisfying `pr`.  Models `findByIdAndDelete`
and `deleteOne`. -/
def removeFirstBy (pr : α → Bool) : List α → List α
  | [] => []
  | x :: xs => if pr x then xs else x :: removeFirstBy pr xs

/-- Album lookup by id, `Album.findById`. -/
def DBState.findAlbum (s : DBState) (i : Nat) : Option Album :=
  s.albums.find? (fun a => a.id == i)

/-- Album lookup by name, `Album.findOne({ name })`. -/
def DBState.findAlbumByName (s : DBState) (n : String) : Option Album :=
  s.albums.find? (fun a => a.name == n)

/-- Photo lookup by id, `Photo.findById`. -/
def DBState.findPhoto (s : DBState) (i : Nat) : Option Photo :=
  s.photos.find? (fun p => p.id == i)

/-- Counter update `Album.findByIdAndUpdate(id, { $inc: { photoCount: d } })`.
With `id? = none` the call receives a `null` or non-castable id and matches
no document (in `bulkMove` the `'null'` map key raises a CastError that
`Promise.allSettled` swallows).  Since `_id` is unique, updating every
match is the same as updating the one matching document. -/
def DBState.incPhotoCount (s : DBState) (id? : Option Nat) (d : Int) : DBState :=
  match id? with
  | none => s
  | some i =>
    { s with albums := s.albums.map (fun a =>
        if a.id == i then { a with photoCount := a.photoCount + d } else a) }

/-- Album removal, `Album.findByIdAndDelete(id)`. -/
def DBState.removeAlbum (s : DBState) (i : Nat) : DBState :=
  { s with albums := removeFirstBy (fun a => a.id == i) s.albums }

/-- Photo removal, `Photo.findByIdAndDelete` / `Photo.deleteOne({ _id })`. -/
def DBState.removePhoto (s : DBState) (i : Nat) : DBState :=
  { s with photos := removeFirstBy (fun p => p.id == i) s.photos }

/-- Re-point one photo, `photo.albumId = t; photo.save()`. -/
def DBState.setPhotoAlbumFirst (s : DBState) (pid : Nat) (v : Option Nat) : DBState :=
  { s with photos :=
      updateFirstBy (fun p => p.id == pid) (fun p => { p with albumId := v }) s.photos }

/-- Bulk re-point, `Photo.updateMany(filter, { $set: { albumId: t } })`.
Returns the new state and `modifiedCount`: only documents whose `albumId`
actually changes count as modified. -/
def DBState.updateManySetAlbum (s : DBState) (pr : Photo → Bool) (t : Nat) :
    DBState × Nat :=
  ({ s with photos := s.photos.map (fun p =>
      if pr p && !(p.albumId == some t) then { p with albumId := some t } else p) },
   s.photos.countP (fun p => pr p && !(p.albumId == some t)))

/-- Largest id occurring as an album id or as a photo's album reference. -/
def DBState.maxAlbumRef (s : DBState) : Nat :=
  max ((s.albums.map Album.id).foldr max 0)
      ((s.photos.filterMap Photo.albumId).foldr max 0)

/-- A fresh album ObjectId: ids are never reused, so it is above every id
still referenced anywhere. -/
def DBState.freshAlbumId (s : DBState) : Nat := s.maxAlbumRef + 1

/-- A fresh photo ObjectId. -/
def DBState.freshPhotoId (s : DBState) : Nat :=
  (s.photos.map Photo.id).foldr max 0 + 1

/-! ## Media transform (`processMedia`) -/

/-- One staged multer upload. -/
structure UploadedFile where
  path : String
  mimetype : String
  originalname : String
  deriving Repr, DecidableEq

/-- Return value of `processMedia`. -/
structure MediaResult where
  path : String
  mime : String
  ext : String
  deriving Repr, DecidableEq

/-- The three throw sites of `processMedia`. -/
inductive MediaError where
  | heicConvertFailed
  | ffmpegFailed
  | unsupportedType (mime : String)
  deriving Repr, DecidableEq

/-- Outcomes of the external collaborators for one ingestion task:
does `heic-convert` succeed, does FFmpeg succeed, does the R2
`PutObjectCommand` succeed; and, when the converter or FFmpeg fails,
whether the failed attempt had already created its output file on disk
(`heic-convert` can throw before `fs.writeFileSync` runs or the write
itself can die after creating the file; FFmpeg can reject before writing
or error out mid-transcode after `.save(outputPath)` started writing). -/
structure ExtEnv where
  heicOk : Bool
  ffmpegOk : Bool
  uploadOk : Bool
  heicLeftOutput : Bool
  ffmpegLeftOutput : Bool
  deriving Repr, DecidableEq

/-- Index of the last `'.'` in `cs`, if any. -/
def lastDotIdx? : List Char → Option Nat
  | [] => none
  | c :: cs =>
    match lastDotIdx? cs with
    | some i => some (i + 1)
    | none => if c = '.' then some 0 else none

/-- Node's `path.extname` restricted to slash-free names (every path
separator in a sanitised base name has been replaced by `_`): the suffix
starting at the last dot, except that a dotless name, a name whose only
dot leads it, and the special name `".."` have extension `""`. -/
def extnameChars (cs : List Char) : List Char :=
  if cs = ['.', '.'] then []
  else
    match lastDotIdx? cs with
    | none => []
    | some 0 => []
    | some i => cs.drop i

/-- String version of `extnameChars`. -/
def extname (s : String) : String := ⟨extnameChars s.data⟩

/-- JavaScript `String.prototype.replace` with a plain-string pattern:
replace the first occurrence only; an empty pattern inserts the
replacement at the front. -/
def listReplaceFirst (pat repl : List Char) : List Char → List Char
  | [] => if pat.isEmpty then repl else []
  | c :: cs =>
    if pat.isPrefixOf (c :: cs) then repl ++ (c :: cs).drop pat.length
    else c :: listReplaceFirst pat repl cs

/-- String version of `listReplaceFirst`. -/
def strReplaceFirst (s pat repl : String) : String :=
  ⟨listReplaceFirst pat.data repl.data s.data⟩

/-- Character-wise `toLowerCase` (JavaScript lowercases the extension
character by character; `Char.toLower` handles the ASCII range). -/
def strToLower (s : String) : String := ⟨s.data.map Char.toLower⟩

/-- ASCII letters and digits (the `a-z0-9` ranges under the regex `i`
flag). -/
def isAlnumChar (c : Char) : Bool :=
  ('a' ≤ c && c ≤ 'z') || ('A' ≤ c && c ≤ 'Z') || ('0' ≤ c && c ≤ '9')

/-- CJK ideographs, the `一-龥` range of the regex. -/
def isCJKChar (c : Char) : Bool :=
  0x4e00 ≤ c.toNat && c.toNat ≤ 0x9fa5

/-- Character class kept by the sanitiser regex
`[^a-z0-9一-龥\.\-]` with flags `gi`: ASCII alphanumerics, CJK
ideographs, the dot and the hyphen. -/
def keepChar (c : Char) : Bool :=
  isAlnumChar c || isCJKChar c || c == '.' || c == '-'

/-- Sanitiser `originalname.replace(/[^a-z0-9一-龥\.\-]/gi, '_')`. -/
def sanitizeName (s : String) : String :=
  ⟨s.data.map (fun c => if keepChar c then c else '_')⟩

/-- Storage filename
`` `${Date.now()}-${baseName.replace(path.extname(baseName), processedMedia.ext)}` ``. -/
def mkRawFileName (ts : Nat) (baseName ext : String) : String :=
  Nat.repr ts ++ "-" ++ strReplaceFirst baseName (extname baseName) ext

/-- First classification rule of `processMedia`: recognised standard image
types, by mime or extension. -/
def isStandardImage (mime ext : String) : Bool :=
  mime == "image/jpeg" || mime == "image/png" || mime == "image/webp" ||
  ext == ".jpg" || ext == ".jpeg" || ext == ".png" || ext == ".webp"

/-- Second classification rule: HEIC/HEIF containers. -/
def isHeicType (mime ext : String) : Bool :=
  mime == "image/heic" || mime == "image/heif" ||
  mime == "image/heic-sequence" || mime == "image/heif-sequence" ||
  ext == ".heic" || ext == ".heif"

/-- Third classification rule: video types.  The prefix test is
`mime.startsWith('video/')`, done character-wise. -/
def isVideoType (mime ext : String) : Bool :=
  "video/".data.isPrefixOf mime.data || ext == ".mov" || ext == ".mp4" || ext == ".webm"

/-- The transform `processMedia(file)`: classify by declared mime type and
filename extension, first match wins; pass standard images through,
convert HEIC/HEIF to JPEG, compress video to mp4, reject the rest.  A
converted or compressed result lives at a new temp path written by the
transform. -/
def processMedia (env : ExtEnv) (file : UploadedFile) : Except MediaError MediaResult :=
  let originalExt := strToLower (extname file.originalname)
  if isStandardImage file.mimetype originalExt then
    .ok ⟨file.path, file.mimetype, originalExt⟩
  else if isHeicType file.mimetype originalExt then
    if env.heicOk then .ok ⟨file.path ++ "-converted.jpeg", "image/jpeg", ".jpeg"⟩
    else .error .heicConvertFailed
  else if isVideoType file.mimetype originalExt then
    if env.ffmpegOk then .ok ⟨file.path ++ "-compressed.mp4", "video/mp4", ".mp4"⟩
    else .error .ffmpegFailed
  else .error (.unsupportedType file.mimetype)

/-! ## Ingestion pipeline (`processMediaInBackground`) -/

/-- Task states from the task registry. -/
inductive TaskStatus where
  | PENDING
  | PROCESSING
  | COMPLETED
  | FAILED
  deriving Repr, DecidableEq

/-- Failure recorded in a task's message. -/
inductive PipelineError where
  | media (e : MediaError)
  | uploadFailed
  deriving Repr, DecidableEq

/-- Result of one background ingestion run.  `tempFilesLeft` lists the
temp files this task created that still exist after the `finally`
cleanup; the cleanup checks `fs.existsSync` first, so removing an
already-missing file is a tolerated no-op. -/
structure TaskRun where
  status : TaskStatus
  failure : Option PipelineError
  resultUrl : Option String
  putKey : Option String
  createdPhotoId : Option Nat
  tempFilesLeft : List String
  deriving Repr, DecidableEq

/-- The background worker `processMediaInBackground(taskId)` for one task:
transform, upload to R2 under `images/<generated name>`, create the
`Photo` record, increment the target album's counter; on any failure mark
the task FAILED; the `finally` cleanup deletes the files on
`filesToCleanup`, which starts as the staged upload and gains the
transform output only after `processMedia` returns successfully — so a
transform that failed after creating its output file leaves that output
behind. -/
def processMediaInBackground (env : ExtEnv) (pubBase : String) (ts : Nat)
    (file : UploadedFile) (targetAlbumId : Nat) (s : DBState) : DBState × TaskRun :=
  let baseName := sanitizeName file.originalname
  match processMedia env file with
  | .error e =>
    let created :=
      match e with
      | .heicConvertFailed =>
        if env.heicLeftOutput then [file.path, file.path ++ "-converted.jpeg"]
        else [file.path]
      | .ffmpegFailed =>
        if env.ffmpegLeftOutput then [file.path, file.path ++ "-compressed.mp4"]
        else [file.path]
      | .unsupportedType _ => [file.path]
    let filesToCleanup := [file.path]
    (s, ⟨.FAILED, some (.media e), none, none, none,
         created.filter (fun f => !filesToCleanup.contains f)⟩)
  | .ok m =>
    let created := if m.path == file.path then [file.path] else [file.path, m.path]
    let filesToCleanup := if m.path == file.path then [file.path] else [file.path, m.path]
    if env.uploadOk then
      let rawFileName := mkRawFileName ts baseName m.ext
      let fileKey := "images/" ++ rawFileName
      let r2PublicUrl := pubBase ++ "/" ++ fileKey
      let pid := s.freshPhotoId
      let s1 := { s with photos :=
        s.photos ++ [(⟨pid, file.originalname, rawFileName, r2PublicUrl, some targetAlbumId⟩ : Photo)] }
      let s2 := s1.incPhotoCount (some targetAlbumId) 1
      (s2, ⟨.COMPLETED, none, some r2PublicUrl, some fileKey, some pid,
            created.filter (fun f => !filesToCleanup.contains f)⟩)
    else
      (s, ⟨.FAILED, some .uploadFailed, none, none, none,
           created.filter (fun f => !filesToCleanup.contains f)⟩)

/-- Default-album resolution of `POST /api/tasks/submit-upload`: find the
default album, lazily creating it. -/
def ensureDefaultAlbum (s : DBState) : DBState × Nat :=
  match s.findAlbumByName defaultAlbumName with
  | some d => (s, d.id)
  | none =>
    let i := s.freshAlbumId
    ({ s with albums := s.albums ++ [⟨i, defaultAlbumName, "", 0⟩] }, i)

/-- One accepted upload run to completion: resolve the target album (the
explicit target if it exists, else the default album, created lazily),
then run the background worker. -/
def submitAndProcess (env : ExtEnv) (pubBase : String) (ts : Nat)
    (file : UploadedFile) (target? : Option Nat) (s : DBState) : DBState × TaskRun :=
  let (s1, did) := ensureDefaultAlbum s
  let tid := match target? with
    | none => did
    | some t =>
      match s1.findAlbum t with
      | some a => a.id
      | none => did
  processMediaInBackground env pubBase ts file tid s1

/-! ## Route handlers -/

/-- Observable store operations, recording the order of multi-document
updates. -/
inductive StoreEvent where
  | reassignPhotos (fromAlbum toAlbum : Nat) (count : Nat)
  | incCounter (album : Nat) (delta : Int)
  | deleteAlbumDoc (album : Nat)
  | deleteBlob (key : String)
  | blobDeleteFailed (key : String)
  | deletePhotoDoc (photo : Nat)
  deriving Repr, DecidableEq

/-- Responses of `PUT /api/albums/:id`. -/
inductive PutAlbumRes where
  | badRequest
  | forbiddenDefaultName
  | notFound
  | ok
  deriving Repr, DecidableEq

/-- HTTP status of a `PutAlbumRes`. -/
def PutAlbumRes.status : PutAlbumRes → Nat
  | .badRequest => 400
  | .forbiddenDefaultName => 403
  | .notFound => 404
  | .ok => 200

/-- Route `PUT /api/albums/:id`: rename or re-cover an album; blank name
is rejected, the reserved default name is forbidden before any lookup.
A missing `coverUrl` leaves the stored cover unchanged. -/
def putAlbumRoute (s : DBState) (aid : Nat) (name : String) (coverOpt : Option String) :
    DBState × PutAlbumRes :=
  if name == "" then (s, .badRequest)
  else if name == defaultAlbumName then (s, .forbiddenDefaultName)
  else
    match s.findAlbum aid with
    | none => (s, .notFound)
    | some _ =>
      ({ s with albums :=
                  updateFirstBy (fun a => a.id == aid)
                    (fun a => { a with name := name, coverUrl := coverOpt.getD a.coverUrl })
                    s.albums }, .ok)

/-- Responses of `DELETE /api/albums/:id`. -/
inductive DeleteAlbumRes where
  | notFound
  | forbiddenDefault
  | missingDefault
  | ok (moved : Nat)
  deriving Repr, DecidableEq

/-- HTTP status of a `DeleteAlbumRes`. -/
def DeleteAlbumRes.status : DeleteAlbumRes → Nat
  | .notFound => 404
  | .forbiddenDefault => 403
  | .missingDefault => 500
  | .ok _ => 200

/-- Route `DELETE /api/albums/:id`: refuse to delete the default album;
otherwise re-point the member photos to the default album, credit the
default album's counter by the modified count (skipped when zero), then
delete the album document. -/
def deleteAlbumRoute (s : DBState) (aid : Nat) :
    DBState × DeleteAlbumRes × List StoreEvent :=
  match s.findAlbum aid with
  | none => (s, .notFound, [])
  | some albumToDelete =>
    if albumToDelete.name == defaultAlbumName then (s, .forbiddenDefault, [])
    else
      match s.findAlbumByName defaultAlbumName with
      | none => (s, .missingDefault, [])
      | some d =>
        let r := s.updateManySetAlbum (fun p => p.albumId == some aid) d.id
        let s2 := if 0 < r.2 then r.1.incPhotoCount (some d.id) (r.2 : Int) else r.1
        let s3 := s2.removeAlbum aid
        (s3, .ok r.2,
          [.reassignPhotos aid d.id r.2] ++
          (if 0 < r.2 then [.incCounter d.id (r.2 : Int)] else []) ++
          [.deleteAlbumDoc aid])

/-- Responses of `PATCH /api/photos/:id/move`. -/
inductive MovePhotoRes where
  | badRequest
  | targetNotFound
  | photoNotFound
  | alreadyInTarget
  | moved
  deriving Repr, DecidableEq

/-- HTTP status of a `MovePhotoRes`. -/
def MovePhotoRes.status : MovePhotoRes → Nat
  | .badRequest => 400
  | .targetNotFound => 404
  | .photoNotFound => 404
  | .alreadyInTarget => 200
  | .moved => 200

/-- Route `PATCH /api/photos/:id/move`: validate target, no-op when the
photo is already there, else re-point the photo and adjust both counters
(the decrement on a `null` source album matches no document). -/
def movePhotoRoute (s : DBState) (photoId : Nat) (target? : Option Nat) :
    DBState × MovePhotoRes :=
  match target? with
  | none => (s, .badRequest)
  | some t =>
    match s.findAlbum t with
    | none => (s, .targetNotFound)
    | some _ =>
      match s.findPhoto photoId with
      | none => (s, .photoNotFound)
      | some photo =>
        if photo.albumId == some t then (s, .alreadyInTarget)
        else
          let s1 := s.setPhotoAlbumFirst photoId (some t)
          let s2 := s1.incPhotoCount photo.albumId (-1)
          let s3 := s2.incPhotoCount (some t) 1
          (s3, .moved)

/-- Responses of `DELETE /api/photos/:id`. -/
inductive DeletePhotoRes where
  | notFound
  | blobError
  | ok
  deriving Repr, DecidableEq

/-- HTTP status of a `DeletePhotoRes`. -/
def DeletePhotoRes.status : DeletePhotoRes → Nat
  | .notFound => 404
  | .blobError => 500
  | .ok => 200

/-- Route `DELETE /api/photos/:id`: delete the blob first (`blobOk` is the
R2 outcome; a failure aborts with 500 leaving the catalog untouched),
then the record, then decrement the album counter when the photo has
one. -/
def deletePhotoRoute (blobOk : Bool) (s : DBState) (photoId : Nat) :
    DBState × DeletePhotoRes :=
  match s.findPhoto photoId with
  | none => (s, .notFound)
  | some photo =>
    if blobOk then
      let s1 := s.removePhoto photoId
      let s2 := s1.incPhotoCount photo.albumId (-1)
      (s2, .ok)
    else (s, .blobError)

/-- Responses of `POST /api/photos/bulkDelete`. -/
inductive BulkDeleteRes where
  | badRequest
  | allFailed (failures : List (Nat × String))
  | ok (successes : List Nat) (failures : List (Nat × String))
  deriving Repr, DecidableEq

/-- HTTP status of a `BulkDeleteRes`. -/
def BulkDeleteRes.status : BulkDeleteRes → Nat
  | .badRequest => 400
  | .allFailed _ => 500
  | .ok _ _ => 200

/-- State effect of one iteration of the bulk-delete loop on photo `p`:
blob delete (`blobFail` gives the R2 outcome per storage key), then
record delete, then counter decrement; a blob failure is caught and the
catalog is left untouched for that item. -/
def bulkDeleteItemState (blobFail : String → Bool) (st : DBState) (p : Photo) : DBState :=
  if blobFail p.storageFileName then st
  else (st.removePhoto p.id).incPhotoCount p.albumId (-1)

/-- Store events of one iteration of the bulk-delete loop. -/
def bulkDeleteItemTrace (blobFail : String → Bool) (p : Photo) : List StoreEvent :=
  if blobFail p.storageFileName then
    [.blobDeleteFailed ("images/" ++ p.storageFileName)]
  else
    [.deleteBlob ("images/" ++ p.storageFileName), .deletePhotoDoc p.id] ++
    (match p.albumId with
     | some a => [.incCounter a (-1)]
     | none => [])

/-- The sequential `for...of` loop of bulk delete, threading state and
accumulating the success and failure lists and the event trace. -/
def bulkDeleteLoop (blobFail : String → Bool) :
    List Photo → DBState × List Nat × List (Nat × String) × List StoreEvent →
    DBState × List Nat × List (Nat × String) × List StoreEvent
  | [], acc => acc
  | p :: rest, (st, succ, fail, tr) =>
    bulkDeleteLoop blobFail rest
      (bulkDeleteItemState blobFail st p,
       succ ++ (if blobFail p.storageFileName then [] else [p.id]),
       fail ++ (if blobFail p.storageFileName then [(p.id, "R2 刪除失敗")] else []),
       tr ++ bulkDeleteItemTrace blobFail p)

/-- Route `POST /api/photos/bulkDelete`: validate the id list, fetch the
matching photos, process them strictly sequentially, and answer 500 only
when there were failures and no success at all. -/
def bulkDeleteRoute (blobFail : String → Bool) (s : DBState) (photoIds : List Nat) :
    DBState × BulkDeleteRes × List StoreEvent :=
  if photoIds.isEmpty then (s, .badRequest, [])
  else
    let matched := s.photos.filter (fun p => photoIds.contains p.id)
    let r := bulkDeleteLoop blobFail matched (s, [], [], [])
    if r.2.1.isEmpty && !r.2.2.1.isEmpty then (r.1, .allFailed r.2.2.1, r.2.2.2)
    else (r.1, .ok r.2.1 r.2.2.1, r.2.2.2)

/-- Responses of `POST /api/photos/bulkMove`. -/
inductive BulkMoveRes where
  | badRequest
  | targetNotFound
  | noPhotos
  | ok (successes : List Nat) (failures : List (Nat × String))
  deriving Repr, DecidableEq

/-- HTTP status of a `BulkMoveRes`. -/
def BulkMoveRes.status : BulkMoveRes → Nat
  | .badRequest => 400
  | .targetNotFound => 404
  | .noPhotos => 404
  | .ok _ _ => 200

/-- Route `POST /api/photos/bulkMove`: validate the request and the target
album; fetch the matched photos and build the per-source-album counts
(photos already in the target are excluded; the `'null'` key built for
album-less photos dies in a CastError swallowed by `Promise.allSettled`,
so only real source albums are decremented); one bulk update re-points
every matched photo not already in the target; decrement each distinct
source album by the photos actually moved out of it; increment the target
by the modified count when positive; report every matched photo id as a
success. -/
def bulkMoveRoute (s : DBState) (photoIds : List Nat) (target? : Option Nat) :
    DBState × BulkMoveRes :=
  match target? with
  | none => (s, .badRequest)
  | some t =>
    if photoIds.isEmpty then (s, .badRequest)
    else
      match s.findAlbum t with
      | none => (s, .targetNotFound)
      | some _ =>
        let photos := s.photos.filter (fun p => photoIds.contains p.id)
        if photos.isEmpty then (s, .noPhotos)
        else
          let srcAlbums :=
            ((photos.filterMap Photo.albumId).filter (fun a => !(a == t))).dedup
          let r := s.updateManySetAlbum
            (fun p => photoIds.contains p.id && !(p.albumId == some t)) t
          let s2 := srcAlbums.foldl (fun st a =>
            st.incPhotoCount (some a)
              (-((photos.countP (fun p => p.albumId == some a) : Int)))) r.1
          let s3 := if 0 < r.2 then s2.incPhotoCount (some t) (r.2 : Int) else s2
          (s3, .ok (photos.map Photo.id) [])

/-! ## Operation sequences and the counter invariant -/

/-- One completed server operation of the kinds the counter-consistency
property ranges over. -/
inductive ServerOp where
  | ingest (env : ExtEnv) (pubBase : String) (ts : Nat) (file : UploadedFile)
      (target? : Option Nat)
  | movePhoto (photoId : Nat) (target? : Option Nat)
  | deletePhoto (blobOk : Bool) (photoId : Nat)
  | bulkMove (photoIds : List Nat) (target? : Option Nat)
  | bulkDelete (blobFail : String → Bool) (photoIds : List Nat)
  | deleteAlbum (albumId : Nat)

/-- State transition of one completed operation. -/
def ServerOp.step : ServerOp → DBState → DBState
  | .ingest env pubBase ts file target?, s => (submitAndProcess env pubBase ts file target? s).1
  | .movePhoto pid t?, s => (movePhotoRoute s pid t?).1
  | .deletePhoto ok pid, s => (deletePhotoRoute ok s pid).1
  | .bulkMove ids t?, s => (bulkMoveRoute s ids t?).1
  | .bulkDelete bf ids, s => (bulkDeleteRoute bf s ids).1
  | .deleteAlbum aid, s => (deleteAlbumRoute s aid).1

/-- Run a sequence of completed operations. -/
def runOps (ops : List ServerOp) (s : DBState) : DBState :=
  ops.foldl (fun st op => op.step st) s

/-- Counter consistency: every album's `photoCount` equals the live number
of photos referencing it. -/
def CounterInv (s : DBState) : Prop :=
  ∀ a ∈ s.albums,
    a.photoCount = (s.photos.countP (fun p => p.albumId == some a.id) : Int)

/-- Store well-formedness: `_id` is unique per collection (MongoDB
guarantees this). -/
def StoreWF (s : DBState) : Prop :=
  (s.albums.map Album.id).Nodup ∧ (s.photos.map Photo.id).Nodup

instance (s : DBState) : Decidable (CounterInv s) :=
  inferInstanceAs (Decidable (∀ a ∈ s.albums,
    a.photoCount = (s.photos.countP (fun p => p.albumId == some a.id) : Int)))

instance (s : DBState) : Decidable (StoreWF s) :=
  inferInstanceAs (Decidable (_ ∧ _))

/-- Sanitiser as claim C7 words it, for comparison with `sanitizeName`
(which is defined from the source): every non-alphanumeric, non-CJK
character is replaced with an underscore. -/
def specClaimedSanitize (s : String) : String :=
  ⟨s.data.map (fun c => if isAlnumChar c || isCJKChar c then c else '_')⟩

/-! ## General list lemmas -/

theorem le_foldr_max {l : List Nat} {x : Nat} (h : x ∈ l) : x ≤ l.foldr max 0 := by
  induction l with
  | nil => exact absurd h (List.not_mem_nil x)
  | cons y ys ih =>
    rw [List.mem_cons] at h
    rw [List.foldr_cons]
    rcases h with rfl | h
    · exact le_max_left _ _
    · exact le_trans (ih h) (le_max_right _ _)

theorem updateFirstBy_append_of_not (pr : α → Bool) (u : α → α) (as : List α)
    (h : ∀ a ∈ as, pr a = false) (x : α) (bs : List α) :
    updateFirstBy pr u (as ++ x :: bs) =
      as ++ (if pr x then u x :: bs else x :: updateFirstBy pr u bs) := by
  induction as with
  | nil => rw [List.nil_append, List.nil_append, updateFirstBy]
  | cons a as ih =>
    have ha : pr a = false := h a (List.mem_cons_self a as)
    simp only [List.cons_append, updateFirstBy, ha, Bool.false_eq_true, if_false,
      List.append_eq]
    rw [ih (fun a ha => h a (List.mem_cons_of_mem _ ha))]

theorem removeFirstBy_append_of_not (pr : α → Bool) (as : List α)
    (h : ∀ a ∈ as, pr a = false) (x : α) (bs : List α) :
    removeFirstBy pr (as ++ x :: bs) =
      as ++ (if pr x then bs else x :: removeFirstBy pr bs) := by
  induction as with
  | nil => rw [List.nil_append, List.nil_append, removeFirstBy]
  | cons a as ih =>
    have ha : pr a = false := h a (List.mem_cons_self a as)
    simp only [List.cons_append, removeFirstBy, ha, Bool.false_eq_true, if_false,
      List.append_eq]
    rw [ih (fun a ha => h a (List.mem_cons_of_mem _ ha))]

theorem updateFirstBy_of_none (pr : α → Bool) (u : α → α) (l : List α)
    (h : l.find? pr = none) : updateFirstBy pr u l = l := by
  induction l with
  | nil => rfl
  | cons x xs ih =>
    rw [List.find?_eq_none] at h
    have hx : pr x = false := by
      have := h x (List.mem_cons_self x xs)
      simpa using this
    simp only [updateFirstBy, hx, Bool.false_eq_true, if_false]
    rw [ih]
    rw [List.find?_eq_none]
    exact fun a ha => h a (List.mem_cons_of_mem _ ha)

theorem removeFirstBy_sublist (pr : α → Bool) (l : List α) :
    (removeFirstBy pr l).Sublist l := by
  induction l with
  | nil => exact List.Sublist.refl _
  | cons x xs ih =>
    rw [removeFirstBy]
    by_cases hx : pr x
    · simp only [hx, if_true]
      exact List.sublist_cons_of_sublist x (List.Sublist.refl xs)
    · simp only [hx, if_false]
      exact List.Sublist.cons₂ x ih

theorem mem_removeFirstBy_of_not (pr : α → Bool) {l : List α} {x : α}
    (hx : x ∈ l) (hpr : pr x = false) : x ∈ removeFirstBy pr l := by
  induction l with
  | nil => exact absurd hx (List.not_mem_nil x)
  | cons y ys ih =>
    rw [List.mem_cons] at hx
    rw [removeFirstBy]
    rcases hx with rfl | hx
    · simp only [hpr, Bool.false_eq_true, if_false]
      exact List.mem_cons_self _ _
    · by_cases hy : pr y
      · simpa [hy] using hx
      · simp only [hy, Bool.false_eq_true, if_false, List.mem_cons]
        exact Or.inr (ih hx)

theorem mem_of_mem_removeFirstBy (pr : α → Bool) {l : List α} {x : α}
    (hx : x ∈ removeFirstBy pr l) : x ∈ l :=
  (removeFirstBy_sublist pr l).mem hx

theorem map_updateFirstBy (pr : α → Bool) (u : α → α) (g : α → β)
    (hg : ∀ x, g (u x) = g x) (l : List α) :
    (updateFirstBy pr u l).map g = l.map g := by
  induction l with
  | nil => rfl
  | cons x xs ih =>
    rw [updateFirstBy]
    by_cases hx : pr x
    · simp [hx, hg]
    · simp [hx, ih]

theorem countP_and_split (p q : α → Bool) (l : List α) :
    l.countP p = l.countP (fun a => p a && q a) + l.countP (fun a => p a && !q a) := by
  induction l with
  | nil => rfl
  | cons x xs ih =>
    rw [List.countP_cons, List.countP_cons, List.countP_cons, ih]
    by_cases hp : p x <;> by_cases hq : q x <;> simp [hp, hq] <;> omega

theorem find?_eq_self_of_nodup_map {g : α → β} [BEq β] [LawfulBEq β] {l : List α} {x : α}
    (hn : (l.map g).Nodup) (hx : x ∈ l) :
    l.find? (fun y => g y == g x) = some x := by
  induction l with
  | nil => exact absurd hx (List.not_mem_nil x)
  | cons y ys ih =>
    rw [List.mem_cons] at hx
    rcases hx with rfl | hx
    · rw [List.find?_cons_of_pos _ (by simp)]
    · have hgx : g x ∈ ys.map g := List.mem_map_of_mem g hx
      have hyx : (g y == g x) = false := by
        rw [List.map_cons, List.nodup_cons] at hn
        have : g y ≠ g x := fun he => hn.1 (he ▸ hgx)
        simpa using this
      rw [List.find?_cons_of_neg _ (by simp [hyx])]
      exact ih (by rw [List.map_cons, List.nodup_cons] at hn; exact hn.2) hx

/-! ## State lemmas -/

theorem incPhotoCount_photos (s : DBState) (io : Option Nat) (d : Int) :
    (s.incPhotoCount io d).photos = s.photos := by
  cases io <;> rfl

theorem incPhotoCount_albums_none (s : DBState) (d : Int) :
    (s.incPhotoCount none d).albums = s.albums := rfl

theorem incPhotoCount_albums_some (s : DBState) (i : Nat) (d : Int) :
    (s.incPhotoCount (some i) d).albums = s.albums.map (fun a =>
      if a.id == i then { a with photoCount := a.photoCount + d } else a) := rfl

theorem setPhotoAlbumFirst_albums (s : DBState) (pid : Nat) (v : Option Nat) :
    (s.setPhotoAlbumFirst pid v).albums = s.albums := rfl

theorem removePhoto_albums (s : DBState) (i : Nat) :
    (s.removePhoto i).albums = s.albums := rfl

theorem removeAlbum_photos (s : DBState) (i : Nat) :
    (s.removeAlbum i).photos = s.photos := rfl

theorem bump_id (a : Album) (i : Nat) (d : Int) :
    (if a.id == i then { a with photoCount := a.photoCount + d } else a).id = a.id := by
  by_cases h : a.id == i <;> simp [h]

theorem bump_photoCount (a : Album) (i : Nat) (d : Int) :
    (if a.id == i then { a with photoCount := a.photoCount + d } else a).photoCount =
      a.photoCount + (if a.id = i then d else 0) := by
  by_cases h : a.id = i <;> simp [h]

theorem map_id_of_bump (l : List Album) (i : Nat) (d : Int) :
    (l.map (fun a =>
      if a.id == i then { a with photoCount := a.photoCount + d } else a)).map Album.id =
    l.map Album.id := by
  rw [List.map_map]
  exact List.map_congr_left (fun a _ => bump_id a i d)

theorem incPhotoCount_albums_map_id (s : DBState) (io : Option Nat) (d : Int) :
    ((s.incPhotoCount io d).albums).map Album.id = s.albums.map Album.id := by
  cases io with
  | none => rfl
  | some i => rw [incPhotoCount_albums_some]; exact map_id_of_bump _ _ _

theorem countP_updateFirstBy_albumId (ps : List Photo) (pid : Nat) (photo : Photo)
    (v : Option Nat) (i : Nat)
    (hfind : ps.find? (fun p => p.id == pid) = some photo) :
    ((updateFirstBy (fun p => p.id == pid) (fun p => { p with albumId := v }) ps).countP
        (fun p => p.albumId == some i) : Int) =
      (ps.countP (fun p => p.albumId == some i) : Int)
      + (if v = some i then 1 else 0) - (if photo.albumId = some i then 1 else 0) := by
  obtain ⟨hp, as, bs, rfl, hnot⟩ := List.find?_eq_some.mp hfind
  rw [updateFirstBy_append_of_not _ _ as (fun a ha => by simpa using hnot a ha) photo bs]
  rw [if_pos hp]
  rw [List.countP_append, List.countP_append, List.countP_cons, List.countP_cons]
  push_cast
  by_cases h1 : v = some i <;> by_cases h2 : photo.albumId = some i <;>
    simp [h1, h2] <;> omega

theorem countP_removeFirstBy_albumId (ps : List Photo) (pid : Nat) (photo : Photo) (i : Nat)
    (hfind : ps.find? (fun p => p.id == pid) = some photo) :
    ((removeFirstBy (fun p => p.id == pid) ps).countP
        (fun p => p.albumId == some i) : Int) =
      (ps.countP (fun p => p.albumId == some i) : Int)
      - (if photo.albumId = some i then 1 else 0) := by
  obtain ⟨hp, as, bs, rfl, hnot⟩ := List.find?_eq_some.mp hfind
  rw [removeFirstBy_append_of_not _ as (fun a ha => by simpa using hnot a ha) photo bs]
  rw [if_pos hp]
  rw [List.countP_append, List.countP_append, List.countP_cons]
  push_cast
  by_cases h2 : photo.albumId = some i
  · simp [h2]
    omega
  · simp [h2]

theorem storeWF_incPhotoCount (s : DBState) (io : Option Nat) (d : Int)
    (h : StoreWF s) : StoreWF (s.incPhotoCount io d) := by
  refine ⟨?_, ?_⟩
  · rw [incPhotoCount_albums_map_id]; exact h.1
  · rw [incPhotoCount_photos]; exact h.2

theorem storeWF_setPhotoAlbumFirst (s : DBState) (pid : Nat) (v : Option Nat)
    (h : StoreWF s) : StoreWF (s.setPhotoAlbumFirst pid v) := by
  refine ⟨h.1, ?_⟩
  show ((updateFirstBy _ _ s.photos).map Photo.id).Nodup
  rw [map_updateFirstBy (fun p => p.id == pid) (fun p => { p with albumId := v })
    Photo.id (fun x => rfl)]
  exact h.2

theorem storeWF_removePhoto (s : DBState) (i : Nat)
    (h : StoreWF s) : StoreWF (s.removePhoto i) := by
  refine ⟨h.1, ?_⟩
  show ((removeFirstBy _ s.photos).map Photo.id).Nodup
  exact h.2.sublist (List.Sublist.map Photo.id (removeFirstBy_sublist _ _))

theorem storeWF_removeAlbum (s : DBState) (i : Nat)
    (h : StoreWF s) : StoreWF (s.removeAlbum i) := by
  refine ⟨?_, h.2⟩
  show ((removeFirstBy _ s.albums).map Album.id).Nodup
  exact h.1.sublist (List.Sublist.map Album.id (removeFirstBy_sublist _ _))

theorem storeWF_updateManySetAlbum (s : DBState) (pr : Photo → Bool) (t : Nat)
    (h : StoreWF s) : StoreWF (s.updateManySetAlbum pr t).1 := by
  refine ⟨h.1, ?_⟩
  show ((s.photos.map _).map Photo.id).Nodup
  rw [List.map_map]
  have he : (Photo.id ∘ fun p =>
      if pr p && !(p.albumId == some t) then { p with albumId := some t } else p) =
      Photo.id := by
    funext p
    simp only [Function.comp_apply]
    split <;> rfl
  rw [he]
  exact h.2

theorem freshPhotoId_not_mem (s : DBState) :
    s.freshPhotoId ∉ s.photos.map Photo.id := by
  intro hmem
  have := le_foldr_max hmem
  simp only [DBState.freshPhotoId] at this
  omega

theorem freshAlbumId_not_mem (s : DBState) :
    s.freshAlbumId ∉ s.albums.map Album.id := by
  intro hmem
  have h1 := le_foldr_max hmem
  have h2 : (s.albums.map Album.id).foldr max 0 ≤ s.maxAlbumRef := le_max_left _ _
  simp only [DBState.freshAlbumId] at *
  omega

theorem freshAlbumId_not_ref (s : DBState) (p : Photo) (hp : p ∈ s.photos) :
    p.albumId ≠ some s.freshAlbumId := by
  intro he
  have hmem : s.freshAlbumId ∈ s.photos.filterMap Photo.albumId := by
    rw [List.mem_filterMap]
    exact ⟨p, hp, he⟩
  have h1 := le_foldr_max hmem
  have h2 : (s.photos.filterMap Photo.albumId).foldr max 0 ≤ s.maxAlbumRef :=
    le_max_right _ _
  simp only [DBState.freshAlbumId] at *
  omega

/-! ## Invariant preservation -/

theorem incPhotoCount_albums_get (st : DBState) (io : Option Nat) (d : Int) {b : Album}
    (hb : b ∈ (st.incPhotoCount io d).albums) :
    ∃ a ∈ st.albums, b.id = a.id ∧
      b.photoCount = a.photoCount + (if io = some a.id then d else 0) := by
  cases io with
  | none => exact ⟨b, hb, rfl, by simp⟩
  | some i =>
    rw [incPhotoCount_albums_some] at hb
    obtain ⟨a, ha, rfl⟩ := List.mem_map.mp hb
    refine ⟨a, ha, bump_id a i d, ?_⟩
    rw [bump_photoCount]
    by_cases h : a.id = i
    · simp [h]
    · have h' : i ≠ a.id := fun he => h he.symm
      simp [h, h']

theorem counterInv_movePhoto (s : DBState) (pid : Nat) (t? : Option Nat)
    (hwf : StoreWF s) (hinv : CounterInv s) :
    CounterInv (movePhotoRoute s pid t?).1 ∧ StoreWF (movePhotoRoute s pid t?).1 := by
  rcases t? with _ | t
  · exact ⟨hinv, hwf⟩
  rcases hfa : s.findAlbum t with _ | ta
  · simp only [movePhotoRoute, hfa]
    exact ⟨hinv, hwf⟩
  rcases hfp : s.findPhoto pid with _ | photo
  · simp only [movePhotoRoute, hfa, hfp]
    exact ⟨hinv, hwf⟩
  by_cases halb : photo.albumId = some t
  · have hbeq : (photo.albumId == some t) = true := by simp [halb]
    simp only [movePhotoRoute, hfa, hfp, hbeq, if_true]
    exact ⟨hinv, hwf⟩
  · have hbeq : (photo.albumId == some t) = false := by simp [halb]
    have hmain : (movePhotoRoute s pid (some t)).1 =
        ((s.setPhotoAlbumFirst pid (some t)).incPhotoCount photo.albumId
          (-1)).incPhotoCount (some t) 1 := by
      simp only [movePhotoRoute, hfa, hfp, hbeq, Bool.false_eq_true, if_false]
    rw [hmain]
    constructor
    · intro b hb2
      obtain ⟨a1, ha1, hid1, hpc1⟩ := incPhotoCount_albums_get _ (some t) 1 hb2
      obtain ⟨a, ha, hid2, hpc2⟩ := incPhotoCount_albums_get _ photo.albumId (-1) ha1
      rw [setPhotoAlbumFirst_albums] at ha
      have hph : (((s.setPhotoAlbumFirst pid (some t)).incPhotoCount photo.albumId
          (-1)).incPhotoCount (some t) 1).photos =
          updateFirstBy (fun p => p.id == pid) (fun p => { p with albumId := some t })
            s.photos := by
        rw [incPhotoCount_photos, incPhotoCount_photos]
        rfl
      rw [hph, hid1, hid2,
        countP_updateFirstBy_albumId s.photos pid photo (some t) a.id hfp,
        hpc1, hpc2, hid2, hinv a ha]
      by_cases h1 : some t = some a.id <;> by_cases h2 : photo.albumId = some a.id
      all_goals simp [h1, h2]
      all_goals omega
    · exact storeWF_incPhotoCount _ _ _
        (storeWF_incPhotoCount _ _ _ (storeWF_setPhotoAlbumFirst _ _ _ hwf))

theorem counterInv_deletePhoto (blobOk : Bool) (s : DBState) (pid : Nat)
    (hwf : StoreWF s) (hinv : CounterInv s) :
    CounterInv (deletePhotoRoute blobOk s pid).1 ∧ StoreWF (deletePhotoRoute blobOk s pid).1 := by
  rcases hfp : s.findPhoto pid with _ | photo
  · simp only [deletePhotoRoute, hfp]
    exact ⟨hinv, hwf⟩
  by_cases hok : blobOk
  · have hmain : (deletePhotoRoute blobOk s pid).1 =
        (s.removePhoto pid).incPhotoCount photo.albumId (-1) := by
      simp only [deletePhotoRoute, hfp, hok, if_true]
    rw [hmain]
    constructor
    · intro b hb2
      obtain ⟨a, ha, hid, hpc⟩ := incPhotoCount_albums_get _ photo.albumId (-1) hb2
      rw [removePhoto_albums] at ha
      have hph : ((s.removePhoto pid).incPhotoCount photo.albumId (-1)).photos =
          removeFirstBy (fun p => p.id == pid) s.photos := by
        rw [incPhotoCount_photos]
        rfl
      rw [hph, hid, countP_removeFirstBy_albumId s.photos pid photo a.id hfp,
        hpc, hinv a ha]
      by_cases h2 : photo.albumId = some a.id
      · simp [h2]
        omega
      · simp [h2]
    · exact storeWF_incPhotoCount _ _ _ (storeWF_removePhoto _ _ hwf)
  · simp only [deletePhotoRoute, hfp, hok, Bool.false_eq_true, if_false]
    exact ⟨hinv, hwf⟩

theorem bulkDeleteLoop_spec (blobFail : String → Bool) (items : List Photo) :
    ∀ (st : DBState) (succ : List Nat) (fail : List (Nat × String))
      (tr : List StoreEvent),
    bulkDeleteLoop blobFail items (st, succ, fail, tr) =
      (items.foldl (bulkDeleteItemState blobFail) st,
       succ ++ (items.filter (fun p => !(blobFail p.storageFileName))).map Photo.id,
       fail ++ (items.filter (fun p => blobFail p.storageFileName)).map
         (fun p => (p.id, "R2 刪除失敗")),
       tr ++ items.flatMap (bulkDeleteItemTrace blobFail)) := by
  induction items with
  | nil => intro st succ fail tr; simp [bulkDeleteLoop]
  | cons p rest ih =>
    intro st succ fail tr
    rw [bulkDeleteLoop, ih]
    by_cases hb : blobFail p.storageFileName
    · simp [hb, List.filter_cons, List.flatMap_cons, List.append_assoc]
    · simp [hb, List.filter_cons, List.flatMap_cons, List.append_assoc,
        bulkDeleteItemState]

theorem counterInv_bulkDeleteFold (blobFail : String → Bool) (items : List Photo) :
    ∀ (st : DBState), StoreWF st → CounterInv st →
    (∀ p ∈ items, p ∈ st.photos) → (items.map Photo.id).Nodup →
    CounterInv (items.foldl (bulkDeleteItemState blobFail) st) ∧
      StoreWF (items.foldl (bulkDeleteItemState blobFail) st) := by
  induction items with
  | nil => intro st hwf hinv _ _; exact ⟨hinv, hwf⟩
  | cons p rest ih =>
    intro st hwf hinv hsub hnd
    rw [List.foldl_cons]
    rw [List.map_cons, List.nodup_cons] at hnd
    by_cases hb : blobFail p.storageFileName
    · have hstep : bulkDeleteItemState blobFail st p = st := by
        simp [bulkDeleteItemState, hb]
      rw [hstep]
      exact ih st hwf hinv (fun q hq => hsub q (List.mem_cons_of_mem _ hq)) hnd.2
    · have hstep : bulkDeleteItemState blobFail st p =
          (st.removePhoto p.id).incPhotoCount p.albumId (-1) := by
        simp [bulkDeleteItemState, hb]
      rw [hstep]
      have hfind : st.photos.find? (fun q => q.id == p.id) = some p :=
        find?_eq_self_of_nodup_map hwf.2 (hsub p (List.mem_cons_self _ _))
      have hinv' : CounterInv ((st.removePhoto p.id).incPhotoCount p.albumId (-1)) := by
        intro b hb2
        obtain ⟨a, ha, hid, hpc⟩ := incPhotoCount_albums_get _ p.albumId (-1) hb2
        rw [removePhoto_albums] at ha
        have hph : ((st.removePhoto p.id).incPhotoCount p.albumId (-1)).photos =
            removeFirstBy (fun q => q.id == p.id) st.photos := by
          rw [incPhotoCount_photos]
          rfl
        rw [hph, hid, countP_removeFirstBy_albumId st.photos p.id p a.id hfind,
          hpc, hinv a ha]
        by_cases h2 : p.albumId = some a.id
        · simp [h2]
          omega
        · simp [h2]
      have hwf' : StoreWF ((st.removePhoto p.id).incPhotoCount p.albumId (-1)) :=
        storeWF_incPhotoCount _ _ _ (storeWF_removePhoto _ _ hwf)
      refine ih _ hwf' hinv' ?_ hnd.2
      intro q hq
      have hqs : q ∈ st.photos := hsub q (List.mem_cons_of_mem _ hq)
      have hqid : (q.id == p.id) = false := by
        have : q.id ∈ rest.map Photo.id := List.mem_map_of_mem Photo.id hq
        have hne : q.id ≠ p.id := fun he => hnd.1 (he ▸ this)
        simpa using hne
      rw [incPhotoCount_photos]
      exact mem_removeFirstBy_of_not _ hqs hqid

theorem bulkDeleteRoute_fst (blobFail : String → Bool) (s : DBState) (ids : List Nat) :
    (bulkDeleteRoute blobFail s ids).1 =
      if ids.isEmpty then s
      else (s.photos.filter (fun p => ids.contains p.id)).foldl
        (bulkDeleteItemState blobFail) s := by
  unfold bulkDeleteRoute
  by_cases hi : ids.isEmpty
  · simp [hi]
  · simp only [hi, Bool.false_eq_true, if_false]
    rw [bulkDeleteLoop_spec]
    split <;> rfl

theorem counterInv_bulkDelete (blobFail : String → Bool) (s : DBState) (ids : List Nat)
    (hwf : StoreWF s) (hinv : CounterInv s) :
    CounterInv (bulkDeleteRoute blobFail s ids).1 ∧
      StoreWF (bulkDeleteRoute blobFail s ids).1 := by
  rw [bulkDeleteRoute_fst]
  by_cases hi : ids.isEmpty
  · simp only [hi, if_true]
    exact ⟨hinv, hwf⟩
  · simp only [hi, Bool.false_eq_true, if_false]
    refine counterInv_bulkDeleteFold blobFail _ s hwf hinv ?_ ?_
    · intro p hp
      exact (List.mem_filter.mp hp).1
    · exact hwf.2.sublist (List.Sublist.map Photo.id (List.filter_sublist _))

theorem foldl_incPhotoCount_photos (L : List Nat) (cnt : Nat → Int) :
    ∀ st : DBState,
    (L.foldl (fun st a => st.incPhotoCount (some a) (-(cnt a))) st).photos = st.photos := by
  induction L with
  | nil => intro st; rfl
  | cons x L ih =>
    intro st
    rw [List.foldl_cons, ih, incPhotoCount_photos]

theorem storeWF_foldl_incPhotoCount (L : List Nat) (cnt : Nat → Int) :
    ∀ st : DBState, StoreWF st →
    StoreWF (L.foldl (fun st a => st.incPhotoCount (some a) (-(cnt a))) st) := by
  induction L with
  | nil => intro st h; exact h
  | cons x L ih =>
    intro st h
    rw [List.foldl_cons]
    exact ih _ (storeWF_incPhotoCount _ _ _ h)

theorem foldl_incPhotoCount_albums_get (L : List Nat) (cnt : Nat → Int) (hnd : L.Nodup) :
    ∀ (st : DBState) {b : Album},
    b ∈ (L.foldl (fun st a => st.incPhotoCount (some a) (-(cnt a))) st).albums →
    ∃ a ∈ st.albums, b.id = a.id ∧
      b.photoCount = a.photoCount + (if a.id ∈ L then -(cnt a.id) else 0) := by
  induction L with
  | nil =>
    intro st b hb
    exact ⟨b, hb, rfl, by simp⟩
  | cons x L ih =>
    intro st b hb
    rw [List.foldl_cons] at hb
    rw [List.nodup_cons] at hnd
    obtain ⟨a1, ha1, hid1, hpc1⟩ := ih hnd.2 _ hb
    obtain ⟨a, ha, hid2, hpc2⟩ := incPhotoCount_albums_get st (some x) (-(cnt x)) ha1
    refine ⟨a, ha, hid1.trans hid2, ?_⟩
    rw [hpc1, hid2, hpc2]
    by_cases hx : a.id = x
    · subst hx
      simp [hnd.1]
    · have hx' : ¬(x = a.id) := fun he => hx he.symm
      by_cases hL : a.id ∈ L <;> simp [hx, hx', hL]

theorem countP_bulkUpdate_at_target (ids : List Nat) (t : Nat) (ps : List Photo) :
    (ps.map (fun p =>
      if (ids.contains p.id && !(p.albumId == some t)) && !(p.albumId == some t) then
        { p with albumId := some t } else p)).countP (fun p => p.albumId == some t) =
    ps.countP (fun p =>
      (ids.contains p.id && !(p.albumId == some t)) && !(p.albumId == some t)) +
    ps.countP (fun p => p.albumId == some t) := by
  induction ps with
  | nil => rfl
  | cons p ps ih =>
    rw [List.map_cons, List.countP_cons, List.countP_cons, List.countP_cons]
    by_cases h2 : (p.albumId == some t) = true
    · simp [h2] at ih ⊢
      omega
    · rw [Bool.not_eq_true] at h2
      by_cases h1 : p.id ∈ ids
      · simp [h1, h2] at ih ⊢
        omega
      · simp [h1, h2] at ih ⊢
        omega

theorem countP_bulkUpdate_at_other (ids : List Nat) (t i : Nat) (hit : i ≠ t)
    (ps : List Photo) :
    (ps.map (fun p =>
      if (ids.contains p.id && !(p.albumId == some t)) && !(p.albumId == some t) then
        { p with albumId := some t } else p)).countP (fun p => p.albumId == some i) +
    ps.countP (fun p => (p.albumId == some i) && ids.contains p.id) =
    ps.countP (fun p => p.albumId == some i) := by
  induction ps with
  | nil => rfl
  | cons p ps ih =>
    rw [List.map_cons, List.countP_cons, List.countP_cons, List.countP_cons]
    have hti : ((some t : Option Nat) == some i) = false := by
      simpa using Ne.symm hit
    by_cases h3 : (p.albumId == some i) = true
    · have h3' : p.albumId = some i := by simpa using h3
      have h2 : (p.albumId == some t) = false := by
        rw [h3']
        simpa using hit
      by_cases h1 : p.id ∈ ids
      · simp [h1, h2, h3', hti, hit, Ne.symm hit] at ih ⊢
        omega
      · simp [h1, h2, h3', hti, hit, Ne.symm hit] at ih ⊢
        omega
    · rw [Bool.not_eq_true] at h3
      by_cases h1 : p.id ∈ ids
      · by_cases h2 : (p.albumId == some t) = true
        · simp [h1, h2, h3, hti] at ih ⊢
          omega
        · rw [Bool.not_eq_true] at h2
          simp [h1, h2, h3, hti] at ih ⊢
          omega
      · simp [h1, h3, hti] at ih ⊢
        omega

theorem updateManySetAlbum_albums (s : DBState) (pr : Photo → Bool) (t : Nat) :
    (s.updateManySetAlbum pr t).1.albums = s.albums := rfl

theorem updateManySetAlbum_photos (s : DBState) (pr : Photo → Bool) (t : Nat) :
    (s.updateManySetAlbum pr t).1.photos = s.photos.map (fun p =>
      if pr p && !(p.albumId == some t) then { p with albumId := some t } else p) := rfl

theorem updateManySetAlbum_moved (s : DBState) (pr : Photo → Bool) (t : Nat) :
    (s.updateManySetAlbum pr t).2 =
      s.photos.countP (fun p => pr p && !(p.albumId == some t)) := rfl

theorem mem_srcAlbums_iff (matched : List Photo) (t x : Nat) :
    (x ∈ ((matched.filterMap Photo.albumId).filter (fun a => !(a == t))).dedup) ↔
      (x ≠ t ∧ ∃ p ∈ matched, p.albumId = some x) := by
  rw [List.mem_dedup, List.mem_filter, List.mem_filterMap]
  simp [and_comm]

theorem bulkMove_fold_defect (s : DBState) (ids : List Nat) (t : Nat)
    (hinv : CounterInv s) :
    ∀ b ∈ (List.foldl
        (fun st a => st.incPhotoCount (some a)
          (-((List.countP (fun p => p.albumId == some a)
              (List.filter (fun p => ids.contains p.id) s.photos) : Nat) : Int)))
        (s.updateManySetAlbum (fun p => ids.contains p.id && !(p.albumId == some t)) t).1
        (List.filter (fun a => !(a == t))
          (List.filterMap Photo.albumId
            (List.filter (fun p => ids.contains p.id) s.photos))).dedup).albums,
      b.photoCount +
        (if b.id = t then
          ((s.updateManySetAlbum (fun p => ids.contains p.id &&
            !(p.albumId == some t)) t).2 : Int) else 0) =
      ((List.foldl
        (fun st a => st.incPhotoCount (some a)
          (-((List.countP (fun p => p.albumId == some a)
              (List.filter (fun p => ids.contains p.id) s.photos) : Nat) : Int)))
        (s.updateManySetAlbum (fun p => ids.contains p.id && !(p.albumId == some t)) t).1
        (List.filter (fun a => !(a == t))
          (List.filterMap Photo.albumId
            (List.filter (fun p => ids.contains p.id) s.photos))).dedup).photos.countP
        (fun p => p.albumId == some b.id) : Int) := by
  intro b hb
  obtain ⟨a, ha, hid, hpc⟩ :=
    foldl_incPhotoCount_albums_get _ _ (List.nodup_dedup _) _ hb
  rw [updateManySetAlbum_albums] at ha
  rw [foldl_incPhotoCount_photos]
  simp only [updateManySetAlbum_photos, updateManySetAlbum_moved]
  rw [hid, hpc]
  by_cases hat : a.id = t
  · rw [hat]
    have hns : t ∉ (List.filter (fun a => !(a == t))
        (List.filterMap Photo.albumId
          (List.filter (fun p => ids.contains p.id) s.photos))).dedup := by
      rw [mem_srcAlbums_iff]
      rintro ⟨h1, _⟩
      exact h1 rfl
    rw [if_neg hns, if_pos rfl]
    rw [countP_bulkUpdate_at_target ids t s.photos]
    have hcnt := hinv a ha
    rw [hat] at hcnt
    rw [hcnt]
    push_cast
    ring
  · have h4 := countP_bulkUpdate_at_other ids t a.id hat s.photos
    have h5 : (List.filter (fun p => ids.contains p.id) s.photos).countP
        (fun p => p.albumId == some a.id) =
        s.photos.countP (fun p => (p.albumId == some a.id) && ids.contains p.id) := by
      rw [List.countP_filter]
    rw [if_neg hat, add_zero, hinv a ha]
    by_cases hsrc : a.id ∈ (List.filter (fun a => !(a == t))
        (List.filterMap Photo.albumId
          (List.filter (fun p => ids.contains p.id) s.photos))).dedup
    · rw [if_pos hsrc]
      omega
    · rw [if_neg hsrc, add_zero]
      have hzero : (List.filter (fun p => ids.contains p.id) s.photos).countP
          (fun p => p.albumId == some a.id) = 0 := by
        rw [List.countP_eq_zero]
        intro p hp hcontra
        apply hsrc
        rw [mem_srcAlbums_iff]
        exact ⟨hat, p, hp, by simpa using hcontra⟩
      omega

theorem counterInv_bulkMove (s : DBState) (ids : List Nat) (t? : Option Nat)
    (hwf : StoreWF s) (hinv : CounterInv s) :
    CounterInv (bulkMoveRoute s ids t?).1 ∧ StoreWF (bulkMoveRoute s ids t?).1 := by
  rcases t? with _ | t
  · exact ⟨hinv, hwf⟩
  by_cases hids : ids.isEmpty
  · simp only [bulkMoveRoute, hids, if_true]
    exact ⟨hinv, hwf⟩
  rw [Bool.not_eq_true] at hids
  rcases hfa : s.findAlbum t with _ | ta
  · simp only [bulkMoveRoute, hids, Bool.false_eq_true, if_false, hfa]
    exact ⟨hinv, hwf⟩
  by_cases hmt : (s.photos.filter (fun p => ids.contains p.id)).isEmpty
  · simp only [bulkMoveRoute, hids, Bool.false_eq_true, if_false, hfa, hmt, if_true]
    exact ⟨hinv, hwf⟩
  rw [Bool.not_eq_true] at hmt
  simp only [bulkMoveRoute, hids, Bool.false_eq_true, if_false, hfa, hmt]
  constructor
  · by_cases hmv : 0 < (s.updateManySetAlbum
        (fun p => ids.contains p.id && !(p.albumId == some t)) t).2
    · rw [if_pos hmv]
      intro b hb
      obtain ⟨a2, ha2, hid2, hpc2⟩ := incPhotoCount_albums_get _ (some t) _ hb
      have hdef := bulkMove_fold_defect s ids t hinv a2 ha2
      rw [incPhotoCount_photos, hid2, hpc2, ← hdef]
      by_cases h6 : a2.id = t
      · simp [h6]
      · have h6'' : ¬(t = a2.id) := fun he => h6 he.symm
        have h6' : ¬(some t = some a2.id) := by simpa using h6''
        simp [h6, h6']
    · rw [if_neg hmv]
      intro b hb
      have hdef := bulkMove_fold_defect s ids t hinv b hb
      have hmv0 : (s.updateManySetAlbum
          (fun p => ids.contains p.id && !(p.albumId == some t)) t).2 = 0 := by
        omega
      rw [hmv0] at hdef
      simpa using hdef
  · have hwf2 : StoreWF (List.foldl
        (fun st a => st.incPhotoCount (some a)
          (-((List.countP (fun p => p.albumId == some a)
              (List.filter (fun p => ids.contains p.id) s.photos) : Nat) : Int)))
        (s.updateManySetAlbum (fun p => ids.contains p.id && !(p.albumId == some t)) t).1
        (List.filter (fun a => !(a == t))
          (List.filterMap Photo.albumId
            (List.filter (fun p => ids.contains p.id) s.photos))).dedup) :=
      storeWF_foldl_incPhotoCount _ _ _ (storeWF_updateManySetAlbum _ _ _ hwf)
    split
    · exact storeWF_incPhotoCount _ _ _ hwf2
    · exact hwf2

theorem countP_reassign_at_target (aid did : Nat) (ps : List Photo) :
    (ps.map (fun p => if (p.albumId == some aid) && !(p.albumId == some did) then
      { p with albumId := some did } else p)).countP (fun p => p.albumId == some did) =
    ps.countP (fun p => (p.albumId == some aid) && !(p.albumId == some did)) +
    ps.countP (fun p => p.albumId == some did) := by
  induction ps with
  | nil => rfl
  | cons p ps ih =>
    rw [List.map_cons, List.countP_cons, List.countP_cons, List.countP_cons]
    by_cases hD : (p.albumId == some did) = true
    · simp [hD] at ih ⊢
      omega
    · rw [Bool.not_eq_true] at hD
      by_cases hA : (p.albumId == some aid) = true
      · simp [hA, hD] at ih ⊢
        omega
      · rw [Bool.not_eq_true] at hA
        simp [hA, hD] at ih ⊢
        omega

theorem countP_reassign_at_other (aid did i : Nat) (hi1 : i ≠ did) (hi2 : i ≠ aid)
    (ps : List Photo) :
    (ps.map (fun p => if (p.albumId == some aid) && !(p.albumId == some did) then
      { p with albumId := some did } else p)).countP (fun p => p.albumId == some i) =
    ps.countP (fun p => p.albumId == some i) := by
  induction ps with
  | nil => rfl
  | cons p ps ih =>
    rw [List.map_cons, List.countP_cons, List.countP_cons]
    by_cases hD : (p.albumId == some did) = true
    · have hD' : p.albumId = some did := by simpa using hD
      simp [hD, hD', Ne.symm hi1] at ih ⊢
      omega
    · rw [Bool.not_eq_true] at hD
      by_cases hA : (p.albumId == some aid) = true
      · have hA' : p.albumId = some aid := by simpa using hA
        have had : aid ≠ did := by
          intro he
          rw [hA', he] at hD
          simp at hD
        simp [hA, hD, hA', had, Ne.symm hi1, Ne.symm hi2] at ih ⊢
        omega
      · rw [Bool.not_eq_true] at hA
        simp [hA, hD] at ih ⊢
        omega

theorem reassign_count (aid did : Nat) (ps : List Photo) (i : Nat) (hiaid : i ≠ aid) :
    ((ps.map (fun p => if (p.albumId == some aid) && !(p.albumId == some did) then
      { p with albumId := some did } else p)).countP (fun p => p.albumId == some i) : Int) =
    (ps.countP (fun p => p.albumId == some i) : Int) +
    (if i = did then (ps.countP (fun p => (p.albumId == some aid) &&
      !(p.albumId == some did)) : Int) else 0) := by
  by_cases hdid : i = did
  · subst hdid
    rw [if_pos rfl, countP_reassign_at_target aid i ps]
    push_cast
    ring
  · rw [if_neg hdid, add_zero, countP_reassign_at_other aid did i hdid hiaid ps]

theorem mem_removeFirstBy_album_ne (l : List Album) (i : Nat) (a0 : Album)
    (hnd : (l.map Album.id).Nodup) (hfind : l.find? (fun x => x.id == i) = some a0)
    {b : Album} (hb : b ∈ removeFirstBy (fun x => x.id == i) l) :
    b ∈ l ∧ ¬(b.id = i) := by
  obtain ⟨hp, as, bs, rfl, hnot⟩ := List.find?_eq_some.mp hfind
  rw [removeFirstBy_append_of_not _ as (fun y hy => by simpa using hnot y hy) a0 bs,
    if_pos hp] at hb
  rw [List.mem_append] at hb
  have ha0 : a0.id = i := by simpa using hp
  constructor
  · rcases hb with hb | hb
    · exact List.mem_append_left _ hb
    · exact List.mem_append_right _ (List.mem_cons_of_mem _ hb)
  · rcases hb with hb | hb
    · have := hnot b hb
      simpa using this
    · rw [List.map_append, List.map_cons] at hnd
      have hmid := List.nodup_middle.mp hnd
      rw [List.nodup_cons] at hmid
      intro he
      apply hmid.1
      have hbm : b.id ∈ List.map Album.id as ++ List.map Album.id bs :=
        List.mem_append_right _ (List.mem_map_of_mem Album.id hb)
      rw [he, ← ha0] at hbm
      exact hbm

theorem find?_id_map_bump (l : List Album) (j : Nat) (d' : Int) (i : Nat) :
    ((l.map (fun a => if a.id == j then { a with photoCount := a.photoCount + d' }
      else a)).find? (fun x => x.id == i)) =
    (l.find? (fun x => x.id == i)).map (fun a =>
      if a.id == j then { a with photoCount := a.photoCount + d' } else a) := by
  rw [List.find?_map]
  have he : ((fun x : Album => x.id == i) ∘ (fun a =>
      if a.id == j then { a with photoCount := a.photoCount + d' } else a)) =
      (fun x : Album => x.id == i) := by
    funext x
    simp only [Function.comp_apply, bump_id]
  rw [he]

theorem removeAlbum_albums (s : DBState) (i : Nat) :
    (s.removeAlbum i).albums = removeFirstBy (fun x => x.id == i) s.albums := rfl

theorem counterInv_deleteAlbum (s : DBState) (aid : Nat)
    (hwf : StoreWF s) (hinv : CounterInv s) :
    CounterInv (deleteAlbumRoute s aid).1 ∧ StoreWF (deleteAlbumRoute s aid).1 := by
  rcases hfl : s.findAlbum aid with _ | a
  · simp only [deleteAlbumRoute, hfl]
    exact ⟨hinv, hwf⟩
  by_cases hname : (a.name == defaultAlbumName) = true
  · simp only [deleteAlbumRoute, hfl, hname, if_true]
    exact ⟨hinv, hwf⟩
  rw [Bool.not_eq_true] at hname
  rcases hd : s.findAlbumByName defaultAlbumName with _ | d
  · simp only [deleteAlbumRoute, hfl, hname, Bool.false_eq_true, if_false, hd]
    exact ⟨hinv, hwf⟩
  simp only [deleteAlbumRoute, hfl, hname, Bool.false_eq_true, if_false, hd]
  have hamem : a ∈ s.albums := List.mem_of_find?_eq_some hfl
  have haid : a.id = aid := by simpa using List.find?_some hfl
  have hdmem : d ∈ s.albums := List.mem_of_find?_eq_some hd
  have hdname : d.name = defaultAlbumName := by simpa using List.find?_some hd
  have hne : ¬(aid = d.id) := by
    intro he
    have had : a = d := List.inj_on_of_nodup_map hwf.1 hamem hdmem (by rw [haid, he])
    rw [had, hdname] at hname
    simp at hname
  by_cases hn : 0 < (s.updateManySetAlbum (fun p => p.albumId == some aid) d.id).2
  · rw [if_pos hn]
    constructor
    · intro b hb
      rw [removeAlbum_albums, incPhotoCount_albums_some, updateManySetAlbum_albums] at hb
      have hfind : (s.albums.map (fun x =>
          if x.id == d.id then { x with photoCount := x.photoCount +
            ((s.updateManySetAlbum (fun p => p.albumId == some aid) d.id).2 : Int) }
          else x)).find? (fun x => x.id == aid) = some (if a.id == d.id then
            { a with photoCount := a.photoCount +
              ((s.updateManySetAlbum (fun p => p.albumId == some aid) d.id).2 : Int) }
            else a) := by
        rw [find?_id_map_bump]
        have hfl' : s.albums.find? (fun x => x.id == aid) = some a := hfl
        rw [hfl']
        rfl
      have hnd : ((s.albums.map (fun x =>
          if x.id == d.id then { x with photoCount := x.photoCount +
            ((s.updateManySetAlbum (fun p => p.albumId == some aid) d.id).2 : Int) }
          else x)).map Album.id).Nodup := by
        rw [map_id_of_bump]
        exact hwf.1
      obtain ⟨hbM, hbne⟩ := mem_removeFirstBy_album_ne _ aid _ hnd hfind hb
      obtain ⟨a', ha', rfl⟩ := List.mem_map.mp hbM
      have hph : ((((s.updateManySetAlbum (fun p => p.albumId == some aid)
          d.id).1.incPhotoCount (some d.id)
          ((s.updateManySetAlbum (fun p => p.albumId == some aid) d.id).2 : Int)).removeAlbum
          aid).photos) = s.photos.map (fun p =>
            if (p.albumId == some aid) && !(p.albumId == some d.id) then
              { p with albumId := some d.id } else p) := by
        rw [removeAlbum_photos, incPhotoCount_photos]
        simp only [updateManySetAlbum_photos]
      rw [hph, bump_id, bump_photoCount]
      rw [bump_id] at hbne
      rw [reassign_count aid d.id s.photos a'.id hbne]
      rw [hinv a' ha']
      simp only [updateManySetAlbum_moved]
    · exact storeWF_removeAlbum _ _ (storeWF_incPhotoCount _ _ _
        (storeWF_updateManySetAlbum _ _ _ hwf))
  · rw [if_neg hn]
    have hn0 : (s.updateManySetAlbum (fun p => p.albumId == some aid) d.id).2 = 0 := by
      omega
    constructor
    · intro b hb
      rw [removeAlbum_albums, updateManySetAlbum_albums] at hb
      have hfl' : s.albums.find? (fun x => x.id == aid) = some a := hfl
      obtain ⟨hbM, hbne⟩ := mem_removeFirstBy_album_ne s.albums aid a hwf.1 hfl' hb
      have hph : ((((s.updateManySetAlbum (fun p => p.albumId == some aid)
          d.id).1).removeAlbum aid).photos) = s.photos.map (fun p =>
            if (p.albumId == some aid) && !(p.albumId == some d.id) then
              { p with albumId := some d.id } else p) := by
        rw [removeAlbum_photos]
        simp only [updateManySetAlbum_photos]
      rw [hph, reassign_count aid d.id s.photos b.id hbne, hinv b hbM]
      rw [updateManySetAlbum_moved] at hn0
      rw [hn0]
      simp
    · exact storeWF_removeAlbum _ _ (storeWF_updateManySetAlbum _ _ _ hwf)

theorem counterInv_ensureDefault (s : DBState)
    (hwf : StoreWF s) (hinv : CounterInv s) :
    CounterInv (ensureDefaultAlbum s).1 ∧ StoreWF (ensureDefaultAlbum s).1 := by
  unfold ensureDefaultAlbum
  rcases hd : s.findAlbumByName defaultAlbumName with _ | d
  · constructor
    · intro b hb
      simp only [List.mem_append, List.mem_singleton] at hb
      rcases hb with hb | rfl
      · exact hinv b hb
      · show (0 : Int) = _
        have hzero : s.photos.countP (fun p => p.albumId == some s.freshAlbumId) = 0 := by
          rw [List.countP_eq_zero]
          intro p hp hcontra
          exact freshAlbumId_not_ref s p hp (by simpa using hcontra)
        rw [hzero]
        rfl
    · refine ⟨?_, hwf.2⟩
      show ((s.albums ++ [_]).map Album.id).Nodup
      rw [List.map_append, List.map_singleton]
      rw [show (s.albums.map Album.id ++ [s.freshAlbumId]) =
        (s.albums.map Album.id ++ s.freshAlbumId :: []) from rfl]
      rw [List.nodup_middle]
      rw [List.nodup_cons, List.append_nil]
      exact ⟨freshAlbumId_not_mem s, hwf.1⟩
  · exact ⟨hinv, hwf⟩

theorem counterInv_processMediaInBackground (env : ExtEnv) (pubBase : String)
    (ts : Nat) (file : UploadedFile) (tid : Nat) (s : DBState)
    (hwf : StoreWF s) (hinv : CounterInv s) :
    CounterInv (processMediaInBackground env pubBase ts file tid s).1 ∧
      StoreWF (processMediaInBackground env pubBase ts file tid s).1 := by
  unfold processMediaInBackground
  rcases hm : processMedia env file with e | m
  · exact ⟨hinv, hwf⟩
  by_cases hup : env.uploadOk = true
  · simp only [hup, if_true]
    constructor
    · intro b hb
      obtain ⟨a, ha, hid, hpc⟩ := incPhotoCount_albums_get _ (some tid) 1 hb
      rw [incPhotoCount_photos]
      show _ = ((s.photos ++ [(_ : Photo)]).countP (fun p => p.albumId == some b.id) : Int)
      rw [List.countP_append, List.countP_singleton]
      rw [hid, hpc, hinv a ha]
      by_cases h1 : some tid = some a.id
      · simp [h1]
      · have h1' : ¬(tid = a.id) := fun he => h1 (by rw [he])
        simp [h1, h1']
    · refine ⟨?_, ?_⟩
      · rw [incPhotoCount_albums_map_id]
        exact hwf.1
      · rw [incPhotoCount_photos]
        show ((s.photos ++ [_]).map Photo.id).Nodup
        rw [List.map_append, List.map_singleton]
        rw [show ((s.photos.map Photo.id ++ [s.freshPhotoId]) =
          (s.photos.map Photo.id ++ s.freshPhotoId :: [])) from rfl]
        rw [List.nodup_middle]
        rw [List.nodup_cons, List.append_nil]
        exact ⟨freshPhotoId_not_mem s, hwf.2⟩
  · simp only [hup, Bool.false_eq_true, if_false]
    exact ⟨hinv, hwf⟩

theorem counterInv_ingest (env : ExtEnv) (pubBase : String) (ts : Nat)
    (file : UploadedFile) (target? : Option Nat) (s : DBState)
    (hwf : StoreWF s) (hinv : CounterInv s) :
    CounterInv (submitAndProcess env pubBase ts file target? s).1 ∧
      StoreWF (submitAndProcess env pubBase ts file target? s).1 := by
  unfold submitAndProcess
  have h1 := counterInv_ensureDefault s hwf hinv
  exact counterInv_processMediaInBackground env pubBase ts file _ _ h1.2 h1.1

theorem counterInv_step (op : ServerOp) (s : DBState)
    (hwf : StoreWF s) (hinv : CounterInv s) :
    CounterInv (op.step s) ∧ StoreWF (op.step s) := by
  cases op with
  | ingest env pubBase ts file target? =>
    exact counterInv_ingest env pubBase ts file target? s hwf hinv
  | movePhoto pid t? => exact counterInv_movePhoto s pid t? hwf hinv
  | deletePhoto ok pid => exact counterInv_deletePhoto ok s pid hwf hinv
  | bulkMove ids t? => exact counterInv_bulkMove s ids t? hwf hinv
  | bulkDelete bf ids => exact counterInv_bulkDelete bf s ids hwf hinv
  | deleteAlbum aid => exact counterInv_deleteAlbum s aid hwf hinv

theorem counterInv_runOps (ops : List ServerOp) :
    ∀ s : DBState, StoreWF s → CounterInv s →
    CounterInv (runOps ops s) ∧ StoreWF (runOps ops s) := by
  induction ops with
  | nil => intro s hwf hinv; exact ⟨hinv, hwf⟩
  | cons op ops ih =>
    intro s hwf hinv
    have h := counterInv_step op s hwf hinv
    exact ih (op.step s) h.2 h.1

/-- C1: after any sequence of completed ingestion, single-photo move,
single-photo delete, bulk move, bulk delete, and album-delete operations,
every album's `photoCount` equals the number of `Photo` records whose
`albumId` references it (starting from any well-formed state that
satisfies the counter invariant, e.g. the empty store). -/
theorem C1_photoCount_matches_live_count (ops : List ServerOp) (s : DBState)
    (hwf : StoreWF s) (hinv : CounterInv s) :
    ∀ a ∈ (runOps ops s).albums,
      a.photoCount = ((runOps ops s).photos.countP
        (fun p => p.albumId == some a.id) : Int) :=
  (counterInv_runOps ops s hwf hinv).1

theorem C1_photoCount_matches_live_count_witness :
    StoreWF ⟨[], []⟩ ∧ CounterInv ⟨[], []⟩ ∧
    (∀ a ∈ (runOps
        [ServerOp.ingest ⟨true, true, true, false, false⟩ "https://cdn" 17
          ⟨"/tmp/u1", "image/jpeg", "a.jpg"⟩ none,
         ServerOp.deleteAlbum 1,
         ServerOp.deletePhoto true 1] ⟨[], []⟩).albums,
      a.photoCount = ((runOps
        [ServerOp.ingest ⟨true, true, true, false, false⟩ "https://cdn" 17
          ⟨"/tmp/u1", "image/jpeg", "a.jpg"⟩ none,
         ServerOp.deleteAlbum 1,
         ServerOp.deletePhoto true 1] ⟨[], []⟩).photos.countP
        (fun p => p.albumId == some a.id) : Int)) :=
  ⟨by decide, by decide,
   C1_photoCount_matches_live_count _ ⟨[], []⟩ (by decide) (by decide)⟩

/-- C6: deleting the default album always fails with the Conflict-class
status 403 and leaves the store unchanged; renaming any album (any id,
even a missing one) to the reserved default name always fails with the
Conflict-class status 403 and leaves the store unchanged. -/
theorem C6_default_album_protected (s : DBState) (aid aid2 : Nat) (a : Album)
    (coverOpt : Option String) :
    (s.findAlbum aid = some a → a.name = defaultAlbumName →
      deleteAlbumRoute s aid = (s, DeleteAlbumRes.forbiddenDefault, []) ∧
      DeleteAlbumRes.forbiddenDefault.status = 403) ∧
    (∀ name : String, name = defaultAlbumName →
      putAlbumRoute s aid2 name coverOpt = (s, PutAlbumRes.forbiddenDefaultName) ∧
      PutAlbumRes.forbiddenDefaultName.status = 403) := by
  constructor
  · intro hfa hname
    refine ⟨?_, rfl⟩
    simp only [deleteAlbumRoute, hfa]
    rw [if_pos (by simp [hname])]
  · intro name hname
    refine ⟨?_, rfl⟩
    subst hname
    have hblank : (defaultAlbumName == "") = false := by decide
    simp only [putAlbumRoute]
    rw [if_neg (by decide), if_pos (by simp)]

theorem C6_default_album_protected_witness :
    (DBState.findAlbum ⟨[⟨1, "未分類相簿", "", 0⟩], []⟩ 1 =
      some ⟨1, "未分類相簿", "", 0⟩) ∧
    (Album.name ⟨1, "未分類相簿", "", 0⟩ = defaultAlbumName) ∧
    (deleteAlbumRoute ⟨[⟨1, "未分類相簿", "", 0⟩], []⟩ 1 =
      (⟨[⟨1, "未分類相簿", "", 0⟩], []⟩, DeleteAlbumRes.forbiddenDefault, []) ∧
      DeleteAlbumRes.forbiddenDefault.status = 403) ∧
    (putAlbumRoute ⟨[⟨1, "未分類相簿", "", 0⟩], []⟩ 5 defaultAlbumName none =
      (⟨[⟨1, "未分類相簿", "", 0⟩], []⟩, PutAlbumRes.forbiddenDefaultName) ∧
      PutAlbumRes.forbiddenDefaultName.status = 403) :=
  ⟨by decide, by decide,
   (C6_default_album_protected ⟨[⟨1, "未分類相簿", "", 0⟩], []⟩ 1 5
     ⟨1, "未分類相簿", "", 0⟩ none).1 (by decide) (by decide),
   (C6_default_album_protected ⟨[⟨1, "未分類相簿", "", 0⟩], []⟩ 1 5
     ⟨1, "未分類相簿", "", 0⟩ none).2 defaultAlbumName rfl⟩

/-- C10: a bulk-delete request with a non-empty id list matching no
existing photo returns HTTP 200 with empty success and failure lists,
leaves the store untouched and issues no store or blob operation. -/
theorem C10_bulkDelete_unmatched_ids_ok (blobFail : String → Bool) (s : DBState)
    (photoIds : List Nat) (hne : photoIds ≠ [])
    (hnone : ∀ p ∈ s.photos, p.id ∉ photoIds) :
    bulkDeleteRoute blobFail s photoIds = (s, BulkDeleteRes.ok [] [], []) ∧
    (BulkDeleteRes.ok [] []).status = 200 := by
  refine ⟨?_, rfl⟩
  have hni : photoIds.isEmpty = false := by
    rw [List.isEmpty_eq_false]
    exact hne
  have hmatch : s.photos.filter (fun p => photoIds.contains p.id) = [] := by
    rw [List.filter_eq_nil_iff]
    intro p hp
    have := hnone p hp
    simpa using this
  unfold bulkDeleteRoute
  rw [hni]
  simp only [Bool.false_eq_true, if_false, hmatch]
  rfl

theorem C10_bulkDelete_unmatched_ids_ok_witness :
    (([3, 4] : List Nat) ≠ []) ∧
    (∀ p ∈ DBState.photos ⟨[⟨1, "未分類相簿", "", 1⟩],
        [⟨1, "a", "k1", "u", some 1⟩]⟩, p.id ∉ ([3, 4] : List Nat)) ∧
    (bulkDeleteRoute (fun _ => false) ⟨[⟨1, "未分類相簿", "", 1⟩],
        [⟨1, "a", "k1", "u", some 1⟩]⟩ [3, 4] =
      (⟨[⟨1, "未分類相簿", "", 1⟩], [⟨1, "a", "k1", "u", some 1⟩]⟩,
        BulkDeleteRes.ok [] [], []) ∧
      (BulkDeleteRes.ok [] []).status = 200) :=
  ⟨by decide, by decide,
   C10_bulkDelete_unmatched_ids_ok (fun _ => false)
     ⟨[⟨1, "未分類相簿", "", 1⟩], [⟨1, "a", "k1", "u", some 1⟩]⟩ [3, 4]
     (by decide) (by decide)⟩

theorem filter_not_contains_self (l : List String) :
    l.filter (fun f => !(l.contains f)) = [] := by
  rw [List.filter_eq_nil_iff]
  intro f hf
  simp [hf]

theorem str_append_ne_self (s t : String) (ht : 0 < t.length) : ¬(s ++ t = s) := by
  intro h
  have h2 := congrArg String.length h
  rw [String.length_append] at h2
  omega

/-- C5, counterexample: a HEIC ingestion whose conversion fails after the
output file was created (the `fs.writeFileSync` inside the `try` dying
partway, or FFmpeg erroring mid-transcode in the video case) ends FAILED
with no `Photo` and an untouched catalog, but the transform output
survives the cleanup: `filesToCleanup` gains the output path only after
`processMedia` returns successfully, so "no surviving temp files" is
false. -/
theorem C5_cleanup_counterexample :
    (processMediaInBackground ⟨false, true, true, true, false⟩ "https://cdn" 17
      ⟨"/t", "image/heic", "x.heic"⟩ 1 ⟨[⟨1, "未分類相簿", "", 0⟩], []⟩).2.status =
      TaskStatus.FAILED ∧
    (processMediaInBackground ⟨false, true, true, true, false⟩ "https://cdn" 17
      ⟨"/t", "image/heic", "x.heic"⟩ 1 ⟨[⟨1, "未分類相簿", "", 0⟩], []⟩).1 =
      ⟨[⟨1, "未分類相簿", "", 0⟩], []⟩ ∧
    (processMediaInBackground ⟨false, true, true, true, false⟩ "https://cdn" 17
      ⟨"/t", "image/heic", "x.heic"⟩ 1
      ⟨[⟨1, "未分類相簿", "", 0⟩], []⟩).2.tempFilesLeft = ["/t-converted.jpeg"] :=
  ⟨rfl, rfl, rfl⟩

/-- C5, amended: whenever any step of an ingestion task fails (unsupported
media type, HEIC or FFmpeg transform failure, or blob-upload failure), the
task ends FAILED, no `Photo` record is created and the catalog is
untouched, and the staged upload file never survives the cleanup (which
tolerates already-missing files by checking existence first); the
transform output is also cleaned up when the transform succeeded and a
later step failed, but a transform that failed after creating its output
file leaves that output behind, because the output path joins the cleanup
list only after `processMedia` returns. -/
theorem C5_ingestion_failure_cleanup (env : ExtEnv) (pubBase : String) (ts : Nat)
    (file : UploadedFile) (tid : Nat) (s : DBState)
    (hfail : (∃ e, processMedia env file = Except.error e) ∨ env.uploadOk = false) :
    (processMediaInBackground env pubBase ts file tid s).1 = s ∧
    (processMediaInBackground env pubBase ts file tid s).2.status = TaskStatus.FAILED ∧
    (processMediaInBackground env pubBase ts file tid s).2.createdPhotoId = none ∧
    file.path ∉ (processMediaInBackground env pubBase ts file tid s).2.tempFilesLeft ∧
    (∀ m, processMedia env file = Except.ok m →
      (processMediaInBackground env pubBase ts file tid s).2.tempFilesLeft = []) ∧
    (processMedia env file = Except.error MediaError.heicConvertFailed →
      (processMediaInBackground env pubBase ts file tid s).2.tempFilesLeft =
        if env.heicLeftOutput then [file.path ++ "-converted.jpeg"] else []) ∧
    (processMedia env file = Except.error MediaError.ffmpegFailed →
      (processMediaInBackground env pubBase ts file tid s).2.tempFilesLeft =
        if env.ffmpegLeftOutput then [file.path ++ "-compressed.mp4"] else []) ∧
    (∀ mime, processMedia env file = Except.error (MediaError.unsupportedType mime) →
      (processMediaInBackground env pubBase ts file tid s).2.tempFilesLeft = []) := by
  rcases hm : processMedia env file with e | m
  · unfold processMediaInBackground
    rw [hm]
    refine ⟨rfl, rfl, rfl, ?_, ?_, ?_, ?_, ?_⟩
    · intro hmem
      have h2 := (List.mem_filter.mp hmem).2
      simp at h2
    · intro m hmk
      exact Except.noConfusion hmk
    · intro he
      injection he with he2
      subst he2
      cases hlo : env.heicLeftOutput
      · simp only [hlo, Bool.false_eq_true, if_false]
        exact filter_not_contains_self [file.path]
      · have hne : ¬(file.path ++ "-converted.jpeg" = file.path) :=
          str_append_ne_self _ _ (by decide)
        simp [hne]
    · intro he
      injection he with he2
      subst he2
      cases hlo : env.ffmpegLeftOutput
      · simp only [hlo, Bool.false_eq_true, if_false]
        exact filter_not_contains_self [file.path]
      · have hne : ¬(file.path ++ "-compressed.mp4" = file.path) :=
          str_append_ne_self _ _ (by decide)
        simp [hne]
    · intro mime he
      injection he with he2
      subst he2
      exact filter_not_contains_self [file.path]
  · rcases hfail with ⟨e, he⟩ | hup
    · rw [hm] at he
      cases he
    · unfold processMediaInBackground
      rw [hm]
      simp only [hup, Bool.false_eq_true, if_false]
      have hclean : (if m.path == file.path then [file.path]
          else [file.path, m.path]).filter
          (fun f => !((if m.path == file.path then [file.path]
            else [file.path, m.path]).contains f)) = [] :=
        filter_not_contains_self _
      refine ⟨by trivial, by trivial, by trivial, ?_, ?_, ?_, ?_, ?_⟩
      · show file.path ∉ (if m.path == file.path then [file.path]
          else [file.path, m.path]).filter
          (fun f => !((if m.path == file.path then [file.path]
            else [file.path, m.path]).contains f))
        rw [hclean]
        exact List.not_mem_nil file.path
      · intro m2 hm2
        exact hclean
      · intro he
        exact Except.noConfusion he
      · intro he
        exact Except.noConfusion he
      · intro mime he
        exact Except.noConfusion he

theorem C5_ingestion_failure_cleanup_witness :
    ((∃ e, processMedia ⟨false, true, true, true, false⟩
        ⟨"/t", "image/heic", "x.heic"⟩ = Except.error e) ∨
      ExtEnv.uploadOk ⟨false, true, true, true, false⟩ = false) ∧
    (processMediaInBackground ⟨false, true, true, true, false⟩ "https://cdn" 17
        ⟨"/t", "image/heic", "x.heic"⟩ 1 ⟨[⟨1, "未分類相簿", "", 0⟩], []⟩).1 =
      ⟨[⟨1, "未分類相簿", "", 0⟩], []⟩ ∧
    (processMediaInBackground ⟨false, true, true, true, false⟩ "https://cdn" 17
        ⟨"/t", "image/heic", "x.heic"⟩ 1
        ⟨[⟨1, "未分類相簿", "", 0⟩], []⟩).2.status = TaskStatus.FAILED ∧
    (processMediaInBackground ⟨false, true, true, true, false⟩ "https://cdn" 17
        ⟨"/t", "image/heic", "x.heic"⟩ 1
        ⟨[⟨1, "未分類相簿", "", 0⟩], []⟩).2.createdPhotoId = none ∧
    "/t" ∉ (processMediaInBackground ⟨false, true, true, true, false⟩ "https://cdn" 17
        ⟨"/t", "image/heic", "x.heic"⟩ 1
        ⟨[⟨1, "未分類相簿", "", 0⟩], []⟩).2.tempFilesLeft ∧
    (processMediaInBackground ⟨false, true, true, true, false⟩ "https://cdn" 17
        ⟨"/t", "image/heic", "x.heic"⟩ 1
        ⟨[⟨1, "未分類相簿", "", 0⟩], []⟩).2.tempFilesLeft = ["/t-converted.jpeg"] := by
  have h := C5_ingestion_failure_cleanup ⟨false, true, true, true, false⟩
    "https://cdn" 17 ⟨"/t", "image/heic", "x.heic"⟩ 1
    ⟨[⟨1, "未分類相簿", "", 0⟩], []⟩
    (Or.inl ⟨MediaError.heicConvertFailed, rfl⟩)
  exact ⟨Or.inl ⟨MediaError.heicConvertFailed, rfl⟩, h.1, h.2.1, h.2.2.1,
    h.2.2.2.1, h.2.2.2.2.2.1 rfl⟩

/-- C8: media classification applies the first matching rule in order:
recognised standard images (jpeg/png/webp by mime or extension) pass
through unchanged; otherwise HEIC/HEIF containers convert to JPEG and a
conversion failure is fatal to the task; otherwise video types transcode
to mp4 and a transcode failure is fatal; anything else fails the task
with an unsupported-media-type error. -/
theorem C8_classification_order (env : ExtEnv) (pubBase : String) (ts : Nat)
    (file : UploadedFile) (tid : Nat) (s : DBState) :
    (isStandardImage file.mimetype (strToLower (extname file.originalname)) = true →
      processMedia env file =
        Except.ok ⟨file.path, file.mimetype, strToLower (extname file.originalname)⟩) ∧
    (isStandardImage file.mimetype (strToLower (extname file.originalname)) = false →
     isHeicType file.mimetype (strToLower (extname file.originalname)) = true →
      (env.heicOk = true → processMedia env file =
        Except.ok ⟨file.path ++ "-converted.jpeg", "image/jpeg", ".jpeg"⟩) ∧
      (env.heicOk = false →
        processMedia env file = Except.error MediaError.heicConvertFailed ∧
        (processMediaInBackground env pubBase ts file tid s).2.status =
          TaskStatus.FAILED ∧
        (processMediaInBackground env pubBase ts file tid s).1 = s)) ∧
    (isStandardImage file.mimetype (strToLower (extname file.originalname)) = false →
     isHeicType file.mimetype (strToLower (extname file.originalname)) = false →
     isVideoType file.mimetype (strToLower (extname file.originalname)) = true →
      (env.ffmpegOk = true → processMedia env file =
        Except.ok ⟨file.path ++ "-compressed.mp4", "video/mp4", ".mp4"⟩) ∧
      (env.ffmpegOk = false →
        processMedia env file = Except.error MediaError.ffmpegFailed ∧
        (processMediaInBackground env pubBase ts file tid s).2.status =
          TaskStatus.FAILED ∧
        (processMediaInBackground env pubBase ts file tid s).1 = s)) ∧
    (isStandardImage file.mimetype (strToLower (extname file.originalname)) = false →
     isHeicType file.mimetype (strToLower (extname file.originalname)) = false →
     isVideoType file.mimetype (strToLower (extname file.originalname)) = false →
      processMedia env file =
        Except.error (MediaError.unsupportedType file.mimetype) ∧
      (processMediaInBackground env pubBase ts file tid s).2.status =
        TaskStatus.FAILED ∧
      (processMediaInBackground env pubBase ts file tid s).2.failure =
        some (PipelineError.media (MediaError.unsupportedType file.mimetype)) ∧
      (processMediaInBackground env pubBase ts file tid s).1 = s) := by
  refine ⟨?_, ?_, ?_, ?_⟩
  · intro hstd
    unfold processMedia
    rw [if_pos hstd]
  · intro hstd hheic
    constructor
    · intro hok
      unfold processMedia
      rw [if_neg (by simp [hstd]), if_pos hheic, if_pos hok]
    · intro hbad
      have hm : processMedia env file = Except.error MediaError.heicConvertFailed := by
        unfold processMedia
        rw [if_neg (by simp [hstd]), if_pos hheic, if_neg (by simp [hbad])]
      refine ⟨hm, ?_, ?_⟩ <;> simp only [processMediaInBackground, hm]
  · intro hstd hheic hvid
    constructor
    · intro hok
      unfold processMedia
      rw [if_neg (by simp [hstd]), if_neg (by simp [hheic]), if_pos hvid, if_pos hok]
    · intro hbad
      have hm : processMedia env file = Except.error MediaError.ffmpegFailed := by
        unfold processMedia
        rw [if_neg (by simp [hstd]), if_neg (by simp [hheic]), if_pos hvid,
          if_neg (by simp [hbad])]
      refine ⟨hm, ?_, ?_⟩ <;> simp only [processMediaInBackground, hm]
  · intro hstd hheic hvid
    have hm : processMedia env file =
        Except.error (MediaError.unsupportedType file.mimetype) := by
      unfold processMedia
      rw [if_neg (by simp [hstd]), if_neg (by simp [hheic]), if_neg (by simp [hvid])]
    refine ⟨hm, ?_, ?_, ?_⟩ <;> simp only [processMediaInBackground, hm]

theorem C8_classification_order_witness :
    (isStandardImage "image/jpeg" (strToLower (extname "a.jpg")) = true ∧
      processMedia ⟨true, true, true, false, false⟩ ⟨"/t", "image/jpeg", "a.jpg"⟩ =
        Except.ok ⟨"/t", "image/jpeg", strToLower (extname "a.jpg")⟩) ∧
    (processMedia ⟨false, true, true, false, false⟩ ⟨"/t", "image/heic", "x.heic"⟩ =
        Except.error MediaError.heicConvertFailed ∧
      (processMediaInBackground ⟨false, true, true, false, false⟩ "p" 17
        ⟨"/t", "image/heic", "x.heic"⟩ 1 ⟨[], []⟩).2.status = TaskStatus.FAILED ∧
      (processMediaInBackground ⟨false, true, true, false, false⟩ "p" 17
        ⟨"/t", "image/heic", "x.heic"⟩ 1 ⟨[], []⟩).1 = ⟨[], []⟩) ∧
    (processMedia ⟨true, false, true, false, false⟩ ⟨"/t", "video/quicktime", "v.mov"⟩ =
        Except.error MediaError.ffmpegFailed) ∧
    (processMedia ⟨true, true, true, false, false⟩ ⟨"/t", "application/pdf", "d.pdf"⟩ =
        Except.error (MediaError.unsupportedType "application/pdf")) :=
  ⟨⟨by decide,
    (C8_classification_order ⟨true, true, true, false, false⟩ "p" 17
      ⟨"/t", "image/jpeg", "a.jpg"⟩ 1 ⟨[], []⟩).1 (by decide)⟩,
   ((C8_classification_order ⟨false, true, true, false, false⟩ "p" 17
      ⟨"/t", "image/heic", "x.heic"⟩ 1 ⟨[], []⟩).2.1 (by decide) (by decide)).2 rfl,
   (((C8_classification_order ⟨true, false, true, false, false⟩ "p" 17
      ⟨"/t", "video/quicktime", "v.mov"⟩ 1 ⟨[], []⟩).2.2.1 (by decide) (by decide)
      (by decide)).2 rfl).1,
   ((C8_classification_order ⟨true, true, true, false, false⟩ "p" 17
      ⟨"/t", "application/pdf", "d.pdf"⟩ 1 ⟨[], []⟩).2.2.2 (by decide) (by decide)
      (by decide)).1⟩

theorem countP_reassign_cond (aid did : Nat) (hne : aid ≠ did) (ps : List Photo) :
    ps.countP (fun p => (p.albumId == some aid) && !(p.albumId == some did)) =
    ps.countP (fun p => p.albumId == some aid) := by
  induction ps with
  | nil => rfl
  | cons p ps ih =>
    rw [List.countP_cons, List.countP_cons]
    by_cases hA : (p.albumId == some aid) = true
    · have hA' : p.albumId = some aid := by simpa using hA
      have hD : (p.albumId == some did) = false := by
        rw [hA']
        simpa using hne
      simp [hA, hD] at ih ⊢
      omega
    · rw [Bool.not_eq_true] at hA
      simp [hA] at ih ⊢
      omega

theorem reassign_map_simplify (aid did : Nat) (hne : aid ≠ did) (ps : List Photo) :
    ps.map (fun p => if (p.albumId == some aid) && !(p.albumId == some did) then
      { p with albumId := some did } else p) =
    ps.map (fun p => if p.albumId == some aid then { p with albumId := some did }
      else p) := by
  apply List.map_congr_left
  intro p _
  by_cases hA : (p.albumId == some aid) = true
  · have hA' : p.albumId = some aid := by simpa using hA
    have hD : (p.albumId == some did) = false := by
      rw [hA']
      simpa using hne
    simp [hA, hD]
  · rw [Bool.not_eq_true] at hA
    simp [hA]

theorem bump_name (a : Album) (j : Nat) (d' : Int) :
    (if a.id == j then { a with photoCount := a.photoCount + d' } else a).name =
      a.name := by
  split <;> rfl

theorem find?_name_map_bump (l : List Album) (j : Nat) (d' : Int) (n : String) :
    ((l.map (fun a => if a.id == j then { a with photoCount := a.photoCount + d' }
      else a)).find? (fun x => x.name == n)) =
    (l.find? (fun x => x.name == n)).map (fun a =>
      if a.id == j then { a with photoCount := a.photoCount + d' } else a) := by
  rw [List.find?_map]
  have he : ((fun x : Album => x.name == n) ∘ (fun a =>
      if a.id == j then { a with photoCount := a.photoCount + d' } else a)) =
      (fun x : Album => x.name == n) := by
    funext x
    simp only [Function.comp_apply, bump_name]
  rw [he]

theorem find?_removeFirstBy_of_pr_false {pr q : α → Bool} {l : List α} {x : α}
    (hfind : l.find? pr = some x) (hx : q x = false) :
    (removeFirstBy pr l).find? q = l.find? q := by
  obtain ⟨hp, as, bs, rfl, hnot⟩ := List.find?_eq_some.mp hfind
  rw [removeFirstBy_append_of_not _ as (fun y hy => by simpa using hnot y hy) x bs,
    if_pos hp]
  rw [List.find?_append, List.find?_append, List.find?_cons_of_neg _ (by simp [hx])]

theorem find?_id_removeFirstBy_none (l : List Album) (i : Nat) (x : Album)
    (hnd : (l.map Album.id).Nodup) (hfind : l.find? (fun y => y.id == i) = some x) :
    (removeFirstBy (fun y => y.id == i) l).find? (fun y => y.id == i) = none := by
  rw [List.find?_eq_none]
  intro y hy
  have h := mem_removeFirstBy_album_ne l i x hnd hfind hy
  simpa using h.2

theorem album_pc_add_zero (d : Album) :
    { d with photoCount := d.photoCount + (0 : Int) } = d := by
  cases d
  simp

/-- C2: deleting a non-default album re-points exactly its N member photos
to the default album (all other photos untouched), reports N, increases
the default album's `photoCount` by exactly N, deletes the album record,
and issues its store operations in the order: photo reassignment, then the
counter credit (skipped only when N = 0), then the album deletion. -/
theorem C2_deleteAlbum_reassigns (s : DBState) (aid : Nat) (a d : Album)
    (hwf : StoreWF s)
    (ha : s.findAlbum aid = some a) (hname : a.name ≠ defaultAlbumName)
    (hd : s.findAlbumByName defaultAlbumName = some d) :
    (deleteAlbumRoute s aid).2.1 =
      DeleteAlbumRes.ok (s.photos.countP (fun p => p.albumId == some aid)) ∧
    (deleteAlbumRoute s aid).1.photos = s.photos.map (fun p =>
      if p.albumId == some aid then { p with albumId := some d.id } else p) ∧
    (deleteAlbumRoute s aid).1.findAlbumByName defaultAlbumName =
      some { d with photoCount := d.photoCount +
        (s.photos.countP (fun p => p.albumId == some aid) : Int) } ∧
    (deleteAlbumRoute s aid).1.findAlbum aid = none ∧
    (deleteAlbumRoute s aid).2.2 =
      [StoreEvent.reassignPhotos aid d.id
        (s.photos.countP (fun p => p.albumId == some aid))] ++
      (if 0 < s.photos.countP (fun p => p.albumId == some aid) then
        [StoreEvent.incCounter d.id
          (s.photos.countP (fun p => p.albumId == some aid) : Int)]
       else []) ++
      [StoreEvent.deleteAlbumDoc aid] := by
  have hnameb : (a.name == defaultAlbumName) = false := by simpa using hname
  have hamem : a ∈ s.albums := List.mem_of_find?_eq_some ha
  have haid : a.id = aid := by simpa using List.find?_some ha
  have hdmem : d ∈ s.albums := List.mem_of_find?_eq_some hd
  have hdname : d.name = defaultAlbumName := by simpa using List.find?_some hd
  have hne2 : ¬(aid = d.id) := by
    intro he
    have had : a = d := List.inj_on_of_nodup_map hwf.1 hamem hdmem (by rw [haid, he])
    rw [had, hdname] at hnameb
    simp at hnameb
  have hN : (s.updateManySetAlbum (fun p => p.albumId == some aid) d.id).2 =
      s.photos.countP (fun p => p.albumId == some aid) := by
    rw [updateManySetAlbum_moved]
    exact countP_reassign_cond aid d.id hne2 s.photos
  simp only [deleteAlbumRoute, ha, hnameb, Bool.false_eq_true, if_false, hd]
  rw [hN]
  refine ⟨rfl, ?_, ?_, ?_, rfl⟩
  · rw [removeAlbum_photos]
    split
    · rw [incPhotoCount_photos]
      simp only [updateManySetAlbum_photos]
      exact reassign_map_simplify aid d.id hne2 s.photos
    · simp only [updateManySetAlbum_photos]
      exact reassign_map_simplify aid d.id hne2 s.photos
  · show (DBState.removeAlbum _ aid).albums.find? (fun x => x.name == defaultAlbumName)
      = _
    rw [removeAlbum_albums]
    split
    · rw [incPhotoCount_albums_some, updateManySetAlbum_albums]
      have hfl' : s.albums.find? (fun x => x.id == aid) = some a := ha
      have hfind : (s.albums.map (fun x =>
          if x.id == d.id then { x with photoCount := x.photoCount +
            ((s.photos.countP (fun p => p.albumId == some aid) : Nat) : Int) }
          else x)).find? (fun x => x.id == aid) = some (if a.id == d.id then
            { a with photoCount := a.photoCount +
              ((s.photos.countP (fun p => p.albumId == some aid) : Nat) : Int) }
            else a) := by
        rw [find?_id_map_bump, hfl']
        rfl
      have hq : ((if a.id == d.id then
          { a with photoCount := a.photoCount +
            ((s.photos.countP (fun p => p.albumId == some aid) : Nat) : Int) }
          else a).name == defaultAlbumName) = false := by
        rw [show (if a.id == d.id then
          { a with photoCount := a.photoCount +
            ((s.photos.countP (fun p => p.albumId == some aid) : Nat) : Int) }
          else a).name = a.name from bump_name a d.id _]
        exact hnameb
      rw [find?_removeFirstBy_of_pr_false hfind hq]
      rw [find?_name_map_bump]
      have hd' : s.albums.find? (fun x => x.name == defaultAlbumName) = some d := hd
      rw [hd']
      simp
    · have hfl' : s.albums.find? (fun x => x.id == aid) = some a := ha
      rw [updateManySetAlbum_albums]
      rw [find?_removeFirstBy_of_pr_false hfl' hnameb]
      have hd' : s.albums.find? (fun x => x.name == defaultAlbumName) = some d := hd
      rw [hd']
      have hzero : s.photos.countP (fun p => p.albumId == some aid) = 0 := by omega
      rw [hzero]
      rw [show ((0 : Nat) : Int) = (0 : Int) from rfl, album_pc_add_zero]
  · show (DBState.removeAlbum _ aid).albums.find? (fun x => x.id == aid) = _
    rw [removeAlbum_albums]
    split
    · rw [incPhotoCount_albums_some, updateManySetAlbum_albums]
      have hfl' : s.albums.find? (fun x => x.id == aid) = some a := ha
      have hfind : (s.albums.map (fun x =>
          if x.id == d.id then { x with photoCount := x.photoCount +
            ((s.photos.countP (fun p => p.albumId == some aid) : Nat) : Int) }
          else x)).find? (fun x => x.id == aid) = some (if a.id == d.id then
            { a with photoCount := a.photoCount +
              ((s.photos.countP (fun p => p.albumId == some aid) : Nat) : Int) }
            else a) := by
        rw [find?_id_map_bump, hfl']
        rfl
      have hnd : ((s.albums.map (fun x =>
          if x.id == d.id then { x with photoCount := x.photoCount +
            ((s.photos.countP (fun p => p.albumId == some aid) : Nat) : Int) }
          else x)).map Album.id).Nodup := by
        rw [map_id_of_bump]
        exact hwf.1
      exact find?_id_removeFirstBy_none _ aid _ hnd hfind
    · have hfl' : s.albums.find? (fun x => x.id == aid) = some a := ha
      rw [updateManySetAlbum_albums]
      exact find?_id_removeFirstBy_none _ aid _ hwf.1 hfl'

theorem C2_deleteAlbum_reassigns_witness :
    StoreWF (⟨[⟨1, "未分類相簿", "", 0⟩, ⟨2, "旅行", "", 2⟩],
      [⟨10, "a", "k1", "u", some 2⟩, ⟨11, "b", "k2", "u", some 2⟩]⟩ : DBState) ∧
    DBState.findAlbum ⟨[⟨1, "未分類相簿", "", 0⟩, ⟨2, "旅行", "", 2⟩],
      [⟨10, "a", "k1", "u", some 2⟩, ⟨11, "b", "k2", "u", some 2⟩]⟩ 2 =
      some ⟨2, "旅行", "", 2⟩ ∧
    (deleteAlbumRoute ⟨[⟨1, "未分類相簿", "", 0⟩, ⟨2, "旅行", "", 2⟩],
      [⟨10, "a", "k1", "u", some 2⟩, ⟨11, "b", "k2", "u", some 2⟩]⟩ 2).2.1 =
      DeleteAlbumRes.ok 2 ∧
    (deleteAlbumRoute ⟨[⟨1, "未分類相簿", "", 0⟩, ⟨2, "旅行", "", 2⟩],
      [⟨10, "a", "k1", "u", some 2⟩, ⟨11, "b", "k2", "u", some 2⟩]⟩ 2).1.photos =
      [⟨10, "a", "k1", "u", some 1⟩, ⟨11, "b", "k2", "u", some 1⟩] ∧
    (deleteAlbumRoute ⟨[⟨1, "未分類相簿", "", 0⟩, ⟨2, "旅行", "", 2⟩],
      [⟨10, "a", "k1", "u", some 2⟩, ⟨11, "b", "k2", "u", some 2⟩]⟩
      2).1.findAlbumByName defaultAlbumName = some ⟨1, "未分類相簿", "", 2⟩ ∧
    (deleteAlbumRoute ⟨[⟨1, "未分類相簿", "", 0⟩, ⟨2, "旅行", "", 2⟩],
      [⟨10, "a", "k1", "u", some 2⟩, ⟨11, "b", "k2", "u", some 2⟩]⟩ 2).1.findAlbum 2 =
      none ∧
    (deleteAlbumRoute ⟨[⟨1, "未分類相簿", "", 0⟩, ⟨2, "旅行", "", 2⟩],
      [⟨10, "a", "k1", "u", some 2⟩, ⟨11, "b", "k2", "u", some 2⟩]⟩ 2).2.2 =
      [StoreEvent.reassignPhotos 2 1 2, StoreEvent.incCounter 1 2,
        StoreEvent.deleteAlbumDoc 2] := by
  have h := C2_deleteAlbum_reassigns
    ⟨[⟨1, "未分類相簿", "", 0⟩, ⟨2, "旅行", "", 2⟩],
      [⟨10, "a", "k1", "u", some 2⟩, ⟨11, "b", "k2", "u", some 2⟩]⟩ 2
    ⟨2, "旅行", "", 2⟩ ⟨1, "未分類相簿", "", 0⟩
    (by decide) (by decide) (by decide) (by decide)
  exact ⟨by decide, by decide, h.1, h.2.1, h.2.2.1, h.2.2.2.1, h.2.2.2.2⟩

theorem foldl_bulkDelete_preserves_other (blobFail : String → Bool)
    (items : List Photo) :
    ∀ (st : DBState) {p : Photo}, p ∈ st.photos → p.id ∉ items.map Photo.id →
    p ∈ (items.foldl (bulkDeleteItemState blobFail) st).photos := by
  induction items with
  | nil => intro st p hp _; exact hp
  | cons q rest ih =>
    intro st p hp hnotin
    rw [List.map_cons, List.mem_cons] at hnotin
    push_neg at hnotin
    rw [List.foldl_cons]
    by_cases hbf : blobFail q.storageFileName
    · have hstep : bulkDeleteItemState blobFail st q = st := by
        simp [bulkDeleteItemState, hbf]
      rw [hstep]
      exact ih st hp hnotin.2
    · have hstep : bulkDeleteItemState blobFail st q =
          (st.removePhoto q.id).incPhotoCount q.albumId (-1) := by
        simp [bulkDeleteItemState, hbf]
      rw [hstep]
      refine ih _ ?_ hnotin.2
      rw [incPhotoCount_photos]
      exact mem_removeFirstBy_of_not _ hp (by simpa using hnotin.1)

theorem bulkDelete_failed_photo_survives (blobFail : String → Bool)
    (items : List Photo) :
    ∀ (st : DBState) {p : Photo}, p ∈ st.photos → p ∈ items →
    blobFail p.storageFileName = true → (items.map Photo.id).Nodup →
    p ∈ (items.foldl (bulkDeleteItemState blobFail) st).photos := by
  induction items with
  | nil => intro st p _ hmem _ _; cases hmem
  | cons q rest ih =>
    intro st p hp hmem hbf hnd
    rw [List.map_cons, List.nodup_cons] at hnd
    rw [List.mem_cons] at hmem
    rw [List.foldl_cons]
    rcases hmem with rfl | hmem
    · have hstep : bulkDeleteItemState blobFail st p = st := by
        simp [bulkDeleteItemState, hbf]
      rw [hstep]
      exact foldl_bulkDelete_preserves_other blobFail rest st hp hnd.1
    · by_cases hq : blobFail q.storageFileName
      · have hstep : bulkDeleteItemState blobFail st q = st := by
          simp [bulkDeleteItemState, hq]
        rw [hstep]
        exact ih st hp hmem hbf hnd.2
      · have hstep : bulkDeleteItemState blobFail st q =
            (st.removePhoto q.id).incPhotoCount q.albumId (-1) := by
          simp [bulkDeleteItemState, hq]
        rw [hstep]
        refine ih _ ?_ hmem hbf hnd.2
        rw [incPhotoCount_photos]
        have hpq : (p.id == q.id) = false := by
          have : p.id ∈ rest.map Photo.id := List.mem_map_of_mem Photo.id hmem
          have hne : p.id ≠ q.id := fun he => hnd.1 (he ▸ this)
          simpa using hne
        exact mem_removeFirstBy_of_not _ hp hpq

/-- C4: bulk delete processes the matched photos strictly sequentially,
each item doing blob delete, then record delete, then counter decrement;
a per-item blob failure is caught, leaves that item's record and counter
untouched and does not abort the remaining items; the response is the
500 error exactly when at least one item was attempted and every item
failed, and otherwise is the 200 partial-success report listing the
successes and the per-item failures. -/
theorem C4_bulkDelete_sequential_partial (blobFail : String → Bool) (s : DBState)
    (photoIds : List Nat) (hwf : StoreWF s) (hne : photoIds ≠ []) :
    (bulkDeleteRoute blobFail s photoIds).2.2 =
      (s.photos.filter (fun p => photoIds.contains p.id)).flatMap
        (bulkDeleteItemTrace blobFail) ∧
    (∀ p : Photo, blobFail p.storageFileName = false →
      bulkDeleteItemTrace blobFail p =
        [StoreEvent.deleteBlob ("images/" ++ p.storageFileName),
         StoreEvent.deletePhotoDoc p.id] ++
        (match p.albumId with
         | some a => [StoreEvent.incCounter a (-1)]
         | none => [])) ∧
    (∀ (st : DBState) (p : Photo), blobFail p.storageFileName = true →
      bulkDeleteItemState blobFail st p = st) ∧
    (∀ p ∈ s.photos.filter (fun p => photoIds.contains p.id),
      blobFail p.storageFileName = true →
      p ∈ (bulkDeleteRoute blobFail s photoIds).1.photos) ∧
    ((bulkDeleteRoute blobFail s photoIds).2.1.status = 500 ↔
      (s.photos.filter (fun p => photoIds.contains p.id) ≠ [] ∧
       ∀ p ∈ s.photos.filter (fun p => photoIds.contains p.id),
         blobFail p.storageFileName = true)) ∧
    (¬(s.photos.filter (fun p => photoIds.contains p.id) ≠ [] ∧
       ∀ p ∈ s.photos.filter (fun p => photoIds.contains p.id),
         blobFail p.storageFileName = true) →
      (bulkDeleteRoute blobFail s photoIds).2.1 = BulkDeleteRes.ok
        (((s.photos.filter (fun p => photoIds.contains p.id)).filter
          (fun p => !(blobFail p.storageFileName))).map Photo.id)
        (((s.photos.filter (fun p => photoIds.contains p.id)).filter
          (fun p => blobFail p.storageFileName)).map
            (fun p => (p.id, "R2 刪除失敗")))) ∧
    ((s.photos.filter (fun p => photoIds.contains p.id) ≠ [] ∧
      ∀ p ∈ s.photos.filter (fun p => photoIds.contains p.id),
        blobFail p.storageFileName = true) →
      (bulkDeleteRoute blobFail s photoIds).2.1 = BulkDeleteRes.allFailed
        (((s.photos.filter (fun p => photoIds.contains p.id)).filter
          (fun p => blobFail p.storageFileName)).map
            (fun p => (p.id, "R2 刪除失敗")))) := by
  have hni : photoIds.isEmpty = false := by
    rw [List.isEmpty_eq_false]
    exact hne
  have hls := bulkDeleteLoop_spec blobFail
    (s.photos.filter (fun p => photoIds.contains p.id)) s [] [] []
  simp only [List.nil_append] at hls
  have hroute : bulkDeleteRoute blobFail s photoIds =
      (if (((s.photos.filter (fun p => photoIds.contains p.id)).filter
            (fun p => !(blobFail p.storageFileName))).map Photo.id).isEmpty &&
          !((((s.photos.filter (fun p => photoIds.contains p.id)).filter
            (fun p => blobFail p.storageFileName)).map
              (fun p => (p.id, "R2 刪除失敗"))).isEmpty)
       then ((s.photos.filter (fun p => photoIds.contains p.id)).foldl
              (bulkDeleteItemState blobFail) s,
             BulkDeleteRes.allFailed
              (((s.photos.filter (fun p => photoIds.contains p.id)).filter
                (fun p => blobFail p.storageFileName)).map
                  (fun p => (p.id, "R2 刪除失敗"))),
             (s.photos.filter (fun p => photoIds.contains p.id)).flatMap
              (bulkDeleteItemTrace blobFail))
       else ((s.photos.filter (fun p => photoIds.contains p.id)).foldl
              (bulkDeleteItemState blobFail) s,
             BulkDeleteRes.ok
              (((s.photos.filter (fun p => photoIds.contains p.id)).filter
                (fun p => !(blobFail p.storageFileName))).map Photo.id)
              (((s.photos.filter (fun p => photoIds.contains p.id)).filter
                (fun p => blobFail p.storageFileName)).map
                  (fun p => (p.id, "R2 刪除失敗"))),
             (s.photos.filter (fun p => photoIds.contains p.id)).flatMap
              (bulkDeleteItemTrace blobFail))) := by
    unfold bulkDeleteRoute
    rw [hni]
    simp only [Bool.false_eq_true, if_false, hls]
  have hcnd : ((((s.photos.filter (fun p => photoIds.contains p.id)).filter
        (fun p => !(blobFail p.storageFileName))).map Photo.id).isEmpty &&
      !((((s.photos.filter (fun p => photoIds.contains p.id)).filter
        (fun p => blobFail p.storageFileName)).map
          (fun p => (p.id, "R2 刪除失敗"))).isEmpty)) = true ↔
      (s.photos.filter (fun p => photoIds.contains p.id) ≠ [] ∧
       ∀ p ∈ s.photos.filter (fun p => photoIds.contains p.id),
         blobFail p.storageFileName = true) := by
    rw [Bool.and_eq_true, Bool.not_eq_true', List.isEmpty_eq_false,
      List.isEmpty_eq_true]
    constructor
    · rintro ⟨h1, h2⟩
      rw [List.map_eq_nil_iff, List.filter_eq_nil_iff] at h1
      constructor
      · intro hmatched
        apply h2
        rw [hmatched]
        rfl
      · intro p hp
        have := h1 p hp
        simpa using this
    · rintro ⟨h1, h2⟩
      constructor
      · rw [List.map_eq_nil_iff, List.filter_eq_nil_iff]
        intro p hp
        simp [h2 p hp]
      · obtain ⟨p, hp⟩ := List.exists_mem_of_ne_nil _ h1
        apply List.ne_nil_of_mem
        exact List.mem_map_of_mem _ (List.mem_filter.mpr ⟨hp, h2 p hp⟩)
  refine ⟨?_, ?_, ?_, ?_, ?_, ?_, ?_⟩
  · rw [hroute]
    split <;> rfl
  · intro p hbf
    simp [bulkDeleteItemTrace, hbf]
  · intro st p hbf
    simp [bulkDeleteItemState, hbf]
  · intro p hp hbf
    have hfold : (bulkDeleteRoute blobFail s photoIds).1 =
        (s.photos.filter (fun q => photoIds.contains q.id)).foldl
          (bulkDeleteItemState blobFail) s := by
      rw [hroute]
      split <;> rfl
    rw [hfold]
    refine bulkDelete_failed_photo_survives blobFail _ s
      (List.mem_filter.mp hp).1 hp hbf ?_
    exact hwf.2.sublist (List.Sublist.map Photo.id (List.filter_sublist _))
  · rw [hroute]
    by_cases hc : (((((s.photos.filter (fun p => photoIds.contains p.id)).filter
        (fun p => !(blobFail p.storageFileName))).map Photo.id).isEmpty &&
      !((((s.photos.filter (fun p => photoIds.contains p.id)).filter
        (fun p => blobFail p.storageFileName)).map
          (fun p => (p.id, "R2 刪除失敗"))).isEmpty)) = true)
    · rw [if_pos hc]
      exact iff_of_true rfl (hcnd.mp hc)
    · rw [if_neg hc]
      constructor
      · intro h200
        cases h200
      · intro hall
        exact absurd (hcnd.mpr hall) hc
  · intro hnall
    rw [hroute, if_neg (fun hc => hnall (hcnd.mp hc))]
  · intro hall
    rw [hroute, if_pos (hcnd.mpr hall)]

theorem C4_bulkDelete_sequential_partial_witness :
    StoreWF (⟨[⟨1, "未分類相簿", "", 2⟩],
      [⟨1, "a", "k1", "u", some 1⟩, ⟨2, "b", "k2", "u", some 1⟩]⟩ : DBState) ∧
    (([1, 2] : List Nat) ≠ []) ∧
    (bulkDeleteRoute (fun k => k == "k1") ⟨[⟨1, "未分類相簿", "", 2⟩],
      [⟨1, "a", "k1", "u", some 1⟩, ⟨2, "b", "k2", "u", some 1⟩]⟩ [1, 2]).2.2 =
      [StoreEvent.blobDeleteFailed "images/k1", StoreEvent.deleteBlob "images/k2",
       StoreEvent.deletePhotoDoc 2, StoreEvent.incCounter 1 (-1)] ∧
    (⟨1, "a", "k1", "u", some 1⟩ : Photo) ∈
      (bulkDeleteRoute (fun k => k == "k1") ⟨[⟨1, "未分類相簿", "", 2⟩],
        [⟨1, "a", "k1", "u", some 1⟩, ⟨2, "b", "k2", "u", some 1⟩]⟩ [1, 2]).1.photos ∧
    (bulkDeleteRoute (fun k => k == "k1") ⟨[⟨1, "未分類相簿", "", 2⟩],
      [⟨1, "a", "k1", "u", some 1⟩, ⟨2, "b", "k2", "u", some 1⟩]⟩ [1, 2]).2.1 =
      BulkDeleteRes.ok [2] [(1, "R2 刪除失敗")] := by
  have h := C4_bulkDelete_sequential_partial (fun k => k == "k1")
    ⟨[⟨1, "未分類相簿", "", 2⟩],
      [⟨1, "a", "k1", "u", some 1⟩, ⟨2, "b", "k2", "u", some 1⟩]⟩ [1, 2]
    (by decide) (by decide)
  exact ⟨by decide, by decide, h.1,
    h.2.2.2.1 ⟨1, "a", "k1", "u", some 1⟩ (by decide) rfl,
    h.2.2.2.2.2.1 (by decide)⟩

theorem foldl_incPhotoCount_albums_eq (cnt : Nat → Int) (L : List Nat) (hnd : L.Nodup) :
    ∀ st : DBState,
    (L.foldl (fun st a => st.incPhotoCount (some a) (-(cnt a))) st).albums =
      st.albums.map (fun b => if b.id ∈ L then
        { b with photoCount := b.photoCount - cnt b.id } else b) := by
  induction L with
  | nil =>
    intro st
    simp
  | cons x L ih =>
    intro st
    rw [List.nodup_cons] at hnd
    rw [List.foldl_cons, ih hnd.2, incPhotoCount_albums_some, List.map_map]
    apply List.map_congr_left
    intro b _
    simp only [Function.comp_apply]
    by_cases hbx : b.id = x
    · have hbxb : (b.id == x) = true := by simpa using hbx
      rw [if_pos hbxb]
      have hxL : ¬(({ b with photoCount := b.photoCount + -(cnt x) } : Album).id ∈ L) := by
        show ¬(b.id ∈ L)
        rw [hbx]
        exact hnd.1
      rw [if_neg hxL]
      have hmem : b.id ∈ x :: L := by
        rw [List.mem_cons]
        exact Or.inl hbx
      rw [if_pos hmem, hbx, sub_eq_add_neg]
    · have hbxb : ¬((b.id == x) = true) := by simpa using hbx
      rw [if_neg hbxb]
      by_cases hbL : b.id ∈ L
      · have hmem : b.id ∈ x :: L := by
          rw [List.mem_cons]
          exact Or.inr hbL
        rw [if_pos hbL, if_pos hmem]
      · have hmem : ¬(b.id ∈ x :: L) := by
          rw [List.mem_cons]
          exact fun h => h.elim hbx hbL
        rw [if_neg hbL, if_neg hmem]

theorem bulkmove_map_simplify (ids : List Nat) (t : Nat) (ps : List Photo) :
    ps.map (fun p =>
      if (ids.contains p.id && !(p.albumId == some t)) && !(p.albumId == some t) then
        { p with albumId := some t } else p) =
    ps.map (fun p => if ids.contains p.id && !(p.albumId == some t) then
      { p with albumId := some t } else p) := by
  apply List.map_congr_left
  intro p _
  by_cases h2 : (p.albumId == some t) = true
  · simp [h2]
  · rw [Bool.not_eq_true] at h2
    simp [h2]

theorem bulkMove_moved_eq (ids : List Nat) (t : Nat) (s : DBState) :
    (s.updateManySetAlbum (fun p => ids.contains p.id && !(p.albumId == some t)) t).2 =
      (s.photos.filter (fun p => ids.contains p.id)).countP
        (fun p => !(p.albumId == some t)) := by
  rw [updateManySetAlbum_moved, List.countP_filter]
  apply List.countP_congr
  intro p _
  simp only [Bool.and_eq_true, Bool.not_eq_true']
  tauto

/-- C3: when the bulk-move target exists and some photos match, only the
matched photos not already in the target have their `albumId` changed
(matched photos already in the target are an idempotent no-op, unmatched
photos are untouched); every album's counter changes by exactly: plus the
number of photos actually moved for the target album, minus the number of
matched photos moved out of it for every other album. -/
theorem C3_bulkMove_counters (s : DBState) (photoIds : List Nat) (t : Nat)
    (ta : Album) (ht : s.findAlbum t = some ta) (hne : photoIds ≠ [])
    (hm : s.photos.filter (fun p => photoIds.contains p.id) ≠ []) :
    (bulkMoveRoute s photoIds (some t)).1.photos = s.photos.map (fun p =>
      if photoIds.contains p.id && !(p.albumId == some t) then
        { p with albumId := some t } else p) ∧
    (bulkMoveRoute s photoIds (some t)).1.albums = s.albums.map (fun b =>
      { b with photoCount := b.photoCount +
        ((if b.id = t then
            (((s.photos.filter (fun p => photoIds.contains p.id)).countP
              (fun p => !(p.albumId == some t)) : Nat) : Int) else 0) -
         (if b.id = t then 0 else
            (((s.photos.filter (fun p => photoIds.contains p.id)).countP
              (fun p => p.albumId == some b.id) : Nat) : Int))) }) := by
  have hids : photoIds.isEmpty = false := by
    rw [List.isEmpty_eq_false]
    exact hne
  have hmt : (s.photos.filter (fun p => photoIds.contains p.id)).isEmpty = false := by
    rw [List.isEmpty_eq_false]
    exact hm
  have htns : t ∉ (((s.photos.filter (fun p => photoIds.contains p.id)).filterMap
      Photo.albumId).filter (fun a => !(a == t))).dedup := by
    rw [mem_srcAlbums_iff]
    rintro ⟨h, _⟩
    exact h rfl
  have hz : ∀ i : Nat, i ≠ t →
      i ∉ (((s.photos.filter (fun p => photoIds.contains p.id)).filterMap
        Photo.albumId).filter (fun a => !(a == t))).dedup →
      (s.photos.filter (fun p => photoIds.contains p.id)).countP
        (fun p => p.albumId == some i) = 0 := by
    intro i hit hsrc
    rw [List.countP_eq_zero]
    intro p hp hc
    exact hsrc ((mem_srcAlbums_iff _ t i).mpr ⟨hit, p, hp, by simpa using hc⟩)
  simp only [bulkMoveRoute, hids, Bool.false_eq_true, if_false, ht, hmt]
  constructor
  · split
    · rw [incPhotoCount_photos, foldl_incPhotoCount_photos]
      simp only [updateManySetAlbum_photos]
      exact bulkmove_map_simplify photoIds t s.photos
    · rw [foldl_incPhotoCount_photos]
      simp only [updateManySetAlbum_photos]
      exact bulkmove_map_simplify photoIds t s.photos
  · rw [bulkMove_moved_eq photoIds t s]
    split
    · rw [incPhotoCount_albums_some,
        foldl_incPhotoCount_albums_eq _ _ (List.nodup_dedup _),
        updateManySetAlbum_albums, List.map_map]
      apply List.map_congr_left
      intro b _
      simp only [Function.comp_apply]
      by_cases hbt : b.id = t
      · have hbs : b.id ∉ (((s.photos.filter
            (fun p => photoIds.contains p.id)).filterMap
            Photo.albumId).filter (fun a => !(a == t))).dedup := by
          rw [hbt]
          exact htns
        rw [if_neg hbs]
        rw [if_pos (show (b.id == t) = true by simpa using hbt)]
        rw [if_pos hbt, if_pos hbt]
        rw [sub_zero]
      · have hbtb : ¬((b.id == t) = true) := by simpa using hbt
        by_cases hbs : b.id ∈ (((s.photos.filter
            (fun p => photoIds.contains p.id)).filterMap
            Photo.albumId).filter (fun a => !(a == t))).dedup
        · rw [if_pos hbs]
          rw [if_neg (show ¬((({ b with photoCount := b.photoCount -
            ((s.photos.filter (fun p => photoIds.contains p.id)).countP
              (fun p => p.albumId == some b.id) : Int) } : Album).id == t) = true)
            from by simpa using hbt)]
          rw [if_neg hbt, if_neg hbt, zero_sub, sub_eq_add_neg]
        · rw [if_neg hbs, if_neg hbtb, if_neg hbt, if_neg hbt]
          rw [hz b.id hbt hbs]
          simp [album_pc_add_zero]
    · have hmv0 : (s.photos.filter (fun p => photoIds.contains p.id)).countP
          (fun p => !(p.albumId == some t)) = 0 := by
        omega
      rw [foldl_incPhotoCount_albums_eq _ _ (List.nodup_dedup _),
        updateManySetAlbum_albums]
      apply List.map_congr_left
      intro b _
      by_cases hbt : b.id = t
      · have hbs : b.id ∉ (((s.photos.filter
            (fun p => photoIds.contains p.id)).filterMap
            Photo.albumId).filter (fun a => !(a == t))).dedup := by
          rw [hbt]
          exact htns
        rw [if_neg hbs, if_pos hbt, if_pos hbt, hmv0]
        simp [album_pc_add_zero]
      · by_cases hbs : b.id ∈ (((s.photos.filter
            (fun p => photoIds.contains p.id)).filterMap
            Photo.albumId).filter (fun a => !(a == t))).dedup
        · rw [if_pos hbs, if_neg hbt, if_neg hbt, zero_sub, sub_eq_add_neg]
        · rw [if_neg hbs, if_neg hbt, if_neg hbt]
          rw [hz b.id hbt hbs]
          simp [album_pc_add_zero]

theorem C3_bulkMove_counters_witness :
    (bulkMoveRoute ⟨[⟨1, "A", "", 1⟩, ⟨2, "B", "", 1⟩],
      [⟨10, "a", "k1", "u", some 1⟩, ⟨11, "b", "k2", "u", some 2⟩]⟩
      [10, 11] (some 2)).1.photos =
      [⟨10, "a", "k1", "u", some 2⟩, ⟨11, "b", "k2", "u", some 2⟩] ∧
    (bulkMoveRoute ⟨[⟨1, "A", "", 1⟩, ⟨2, "B", "", 1⟩],
      [⟨10, "a", "k1", "u", some 1⟩, ⟨11, "b", "k2", "u", some 2⟩]⟩
      [10, 11] (some 2)).1.albums =
      [⟨1, "A", "", 0⟩, ⟨2, "B", "", 2⟩] := by
  have h := C3_bulkMove_counters
    ⟨[⟨1, "A", "", 1⟩, ⟨2, "B", "", 1⟩],
      [⟨10, "a", "k1", "u", some 1⟩, ⟨11, "b", "k2", "u", some 2⟩]⟩
    [10, 11] 2 ⟨2, "B", "", 1⟩ (by decide) (by decide) (by decide)
  exact ⟨h.1, h.2⟩

theorem countP_not_add (l : List α) (q : α → Bool) :
    l.countP q + l.countP (fun a => !(q a)) = l.length := by
  induction l with
  | nil => rfl
  | cons x xs ih =>
    by_cases hx : q x = true
    · simp [List.countP_cons, hx] at ih ⊢
      omega
    · rw [Bool.not_eq_true] at hx
      simp [List.countP_cons, hx] at ih ⊢
      omega

/-- C9: when the bulk-move target exists and at least one photo matches,
the response reports every matched photo id as a success — including
photos already in the target album that were not moved — so whenever a
matched photo was already in the target, the number of photos actually
moved is strictly below the reported success count. -/
theorem C9_bulkMove_success_overcount (s : DBState) (photoIds : List Nat)
    (t : Nat) (ta : Album) (ht : s.findAlbum t = some ta) (hne : photoIds ≠ [])
    (hm : s.photos.filter (fun p => photoIds.contains p.id) ≠ []) :
    (bulkMoveRoute s photoIds (some t)).2 =
      BulkMoveRes.ok
        ((s.photos.filter (fun p => photoIds.contains p.id)).map Photo.id)
        [] ∧
    (∀ p ∈ s.photos, photoIds.contains p.id = true →
      p.id ∈ (s.photos.filter (fun p => photoIds.contains p.id)).map Photo.id) ∧
    (∀ p ∈ s.photos, photoIds.contains p.id = true → p.albumId = some t →
      (s.photos.filter (fun p => photoIds.contains p.id)).countP
          (fun p => !(p.albumId == some t)) <
        ((s.photos.filter (fun p => photoIds.contains p.id)).map
          Photo.id).length) := by
  have hids : photoIds.isEmpty = false := by
    rw [List.isEmpty_eq_false]
    exact hne
  have hmt : (s.photos.filter (fun p => photoIds.contains p.id)).isEmpty = false := by
    rw [List.isEmpty_eq_false]
    exact hm
  refine ⟨?_, ?_, ?_⟩
  · simp only [bulkMoveRoute, hids, Bool.false_eq_true, if_false, ht, hmt]
  · intro p hp hc
    exact List.mem_map_of_mem Photo.id (List.mem_filter.mpr ⟨hp, hc⟩)
  · intro p hp hc hat
    have hmem : p ∈ s.photos.filter (fun q => photoIds.contains q.id) :=
      List.mem_filter.mpr ⟨hp, hc⟩
    have h1 : 0 < (s.photos.filter (fun q => photoIds.contains q.id)).countP
        (fun q => q.albumId == some t) := by
      rw [List.countP_pos_iff]
      exact ⟨p, hmem, by simpa using hat⟩
    have h2 : (s.photos.filter (fun q => photoIds.contains q.id)).countP
          (fun q => q.albumId == some t) +
        (s.photos.filter (fun q => photoIds.contains q.id)).countP
          (fun q => !(q.albumId == some t)) =
        (s.photos.filter (fun q => photoIds.contains q.id)).length :=
      countP_not_add _ _
    rw [List.length_map]
    omega

theorem C9_bulkMove_success_overcount_witness :
    (bulkMoveRoute ⟨[⟨1, "A", "", 1⟩, ⟨2, "B", "", 1⟩],
      [⟨10, "a", "k1", "u", some 1⟩, ⟨11, "b", "k2", "u", some 2⟩]⟩
      [10, 11] (some 2)).2 = BulkMoveRes.ok [10, 11] [] ∧
    (1 : Nat) < 2 := by
  have h := C9_bulkMove_success_overcount
    ⟨[⟨1, "A", "", 1⟩, ⟨2, "B", "", 1⟩],
      [⟨10, "a", "k1", "u", some 1⟩, ⟨11, "b", "k2", "u", some 2⟩]⟩
    [10, 11] 2 ⟨2, "B", "", 1⟩ (by decide) (by decide) (by decide)
  refine ⟨h.1, ?_⟩
  have h3 := h.2.2 ⟨11, "b", "k2", "u", some 2⟩ (by decide) (by decide) rfl
  exact h3

/-- C7, counterexample: the sanitiser regex `[^a-z0-9一-龥\.\-]` keeps the
dot and the hyphen, so "every non-alphanumeric, non-CJK character is
replaced with an underscore" is false: `a-b.jpg` passes through unchanged,
while the claimed sanitiser would produce `a_b_jpg`; the stored key of an
upload named `a-b.jpg` at timestamp 17 retains both characters. -/
theorem C7_sanitize_counterexample :
    sanitizeName "a-b.jpg" = "a-b.jpg" ∧
    specClaimedSanitize "a-b.jpg" = "a_b_jpg" ∧
    sanitizeName "a-b.jpg" ≠ specClaimedSanitize "a-b.jpg" ∧
    (submitAndProcess ⟨true, true, true, false, false⟩ "https://pub" 17
      ⟨"/tmp/u1", "image/jpeg", "a-b.jpg"⟩ none ⟨[], []⟩).2.putKey =
      some "images/17-a-b.jpg" := by
  refine ⟨rfl, rfl, by decide, rfl⟩

/-- C7, amended: for every transform result accepted for upload, the stored
key is `images/` followed by the timestamp, a hyphen and the sanitised
original name with its extension replaced by the transform's output
extension; the created photo's `storageFileName` is that generated name;
the sanitiser keeps ASCII alphanumerics, CJK ideographs, `.` and `-` and
replaces every other character with `_`; and an upload named `a.jpg` at any
timestamp `ts` is stored under `images/<ts>-a.jpg`. -/
theorem C7_storage_key_sanitized (env : ExtEnv) (pubBase : String) (ts : Nat)
    (file : UploadedFile) (t : Nat) (s : DBState) (m : MediaResult)
    (hm : processMedia env file = Except.ok m) (hup : env.uploadOk = true) :
    (processMediaInBackground env pubBase ts file t s).2.putKey =
      some ("images/" ++ mkRawFileName ts (sanitizeName file.originalname) m.ext) ∧
    (∀ p ∈ (processMediaInBackground env pubBase ts file t s).1.photos,
      p ∉ s.photos →
      p.storageFileName = mkRawFileName ts (sanitizeName file.originalname) m.ext) ∧
    (∀ c ∈ (sanitizeName file.originalname).data, keepChar c = true ∨ c = '_') ∧
    (∀ c ∈ (sanitizeName file.originalname).data,
      isAlnumChar c = false → isCJKChar c = false → c ≠ '.' → c ≠ '-' →
      c = '_') ∧
    (∀ ts2 : Nat,
      (submitAndProcess ⟨true, true, true, false, false⟩ pubBase ts2
        ⟨"/tmp/u1", "image/jpeg", "a.jpg"⟩ none ⟨[], []⟩).2.putKey =
        some ("images/" ++ (Nat.repr ts2 ++ "-a.jpg"))) := by
  have h3all : ∀ c ∈ (sanitizeName file.originalname).data,
      keepChar c = true ∨ c = '_' := by
    intro c hc
    obtain ⟨c0, hc0, rfl⟩ := List.mem_map.mp (by simpa [sanitizeName] using hc)
    by_cases hk : keepChar c0 = true
    · rw [if_pos hk]
      exact Or.inl hk
    · rw [Bool.not_eq_true] at hk
      simp [hk]
  refine ⟨?_, ?_, h3all, ?_, ?_⟩
  · simp only [processMediaInBackground, hm, hup, if_true]
  · simp only [processMediaInBackground, hm, hup, if_true]
    rw [incPhotoCount_photos]
    intro p hp hnot
    rcases List.mem_append.mp hp with hold | hnew
    · exact absurd hold hnot
    · rw [List.mem_singleton] at hnew
      rw [hnew]
  · intro c hc ha hb hd hh
    rcases h3all c hc with hk | he
    · rw [keepChar, ha, hb] at hk
      simp only [Bool.false_or] at hk
      rcases Bool.or_eq_true_iff.mp hk with h1 | h2
      · exact absurd (by simpa using h1) hd
      · exact absurd (by simpa using h2) hh
    · exact he
  · intro ts2
    have hred : (submitAndProcess ⟨true, true, true, false, false⟩ pubBase ts2
        ⟨"/tmp/u1", "image/jpeg", "a.jpg"⟩ none ⟨[], []⟩).2.putKey =
        some ("images/" ++ mkRawFileName ts2 (sanitizeName "a.jpg") ".jpg") := rfl
    rw [hred]
    congr 1
    show "images/" ++ ((Nat.repr ts2 ++ "-") ++ "a.jpg") =
      "images/" ++ (Nat.repr ts2 ++ "-a.jpg")
    rw [String.append_assoc]
    rfl

theorem C7_storage_key_sanitized_witness :
    (processMediaInBackground ⟨true, true, true, false, false⟩ "https://pub" 17
      ⟨"/tmp/u1", "image/jpeg", "a b.jpg"⟩ 1
      ⟨[⟨1, "A", "", 0⟩], []⟩).2.putKey = some "images/17-a_b.jpg" := by
  have h := C7_storage_key_sanitized ⟨true, true, true, false, false⟩ "https://pub" 17
    ⟨"/tmp/u1", "image/jpeg", "a b.jpg"⟩ 1 ⟨[⟨1, "A", "", 0⟩], []⟩
    ⟨"/tmp/u1", "image/jpeg", ".jpg"⟩ rfl rfl
  exact h.1
